import Mathlib

/-!
Verification of the LifeTracker MCP server's DynamoDB-backed operations
(`src/main.py`): the query/filter composition and index-then-fallback logic of
`get_activity_logs`, the exhaustive paginated sweeps of
`delete_all_user_activities` / `delete_all_user_memories`, the single-key
`delete_activity_log`, the per-type create operations with their declared
pydantic bounds, and the uniform success/error envelopes.

The record store (DynamoDB) and the `json` module are external collaborators;
they are modelled here by executable Lean functions that follow their
documented behaviour: a table is a list of attribute maps held in key order,
`query`/`scan` evaluate up to `Limit` (or an internal page bound) items past
the `ExclusiveStartKey`, apply the filter expression afterwards, and report a
`LastEvaluatedKey` when evaluation stopped early; `json.dumps` is injective and
`json.loads` inverts it, a non-JSON string failing to parse.
-/

namespace LifeTracker

/-! ## Model of the `json` module -/

/-- JSON values as Python's `json` module round-trips them
(`model_dump` output: dicts, lists, strings, numbers, booleans, null). -/
inductive JVal : Type where
  | jnull : JVal
  | jbool : Bool → JVal
  | jnum : Rat → JVal
  | jstr : String → JVal
  | jarr : List JVal → JVal
  | jobj : List (String × JVal) → JVal
deriving Repr

/-- A string held in the store: either the `json.dumps` image of a JSON value,
or a string that is not valid JSON (so `json.loads` fails on it). This is the
set of strings quotiented by what `json.loads` does to them. -/
inductive DBStr : Type where
  | json : JVal → DBStr
  | raw : String → DBStr
deriving Repr

/-- Model of `json.dumps` on a `model_dump` result. -/
def jsonDumps (j : JVal) : DBStr := DBStr.json j

/-- Model of `json.loads`: inverts `jsonDumps`; fails on a non-JSON string. -/
def jsonLoads : DBStr → Option JVal
  | DBStr.json j => some j
  | DBStr.raw _ => none

/-! ## Records of the two tables -/

/-- An ActivityLog item as the create operations put it: attribute map with
`processedData` held serialized and `user_name` possibly absent. -/
structure Item where
  id : String
  timestamp : String
  activityType : String
  rawInput : String
  createdAt : String
  updatedAt : String
  processedData : Option DBStr
  user_name : Option String
deriving Repr

/-- A MemoryEntry item. -/
structure MemItem where
  id : String
  entryType : String
  name : String
  user_name : Option String
  data : Option DBStr
  createdAt : String
  updatedAt : String
  notes : Option String
deriving Repr

/-! ## Model of the DynamoDB store -/

/-- The store as one operation sees it: the table (kept in key order, the
order scans and continuation tokens follow), whether the `user_name-index`
GSI is available (a query against it raises otherwise), the store's internal
page bound (the 1 MB page cut, at least 1 item), and failure injections:
`failScan`/`failPut` make `scan`/`put_item` raise, `deleteFailAfter = some n`
makes the n-th `delete_item` call of the operation raise. -/
structure StoreEnv (α : Type) where
  table : List α
  gsiOk : Bool
  pageSize : Nat
  failScan : Bool
  failPut : Bool
  deleteFailAfter : Option Nat
deriving Repr

/-- One page returned by `query`/`scan`: the filtered items and the
`LastEvaluatedKey`, present when evaluation stopped before the end. -/
structure Page (α : Type) where
  items : List α
  lek : Option String
deriving Repr

/-- Strict bytewise order on the character lists of two keys, the order
DynamoDB stores and scans string keys in. -/
def keyLt : List Char → List Char → Bool
  | [], [] => false
  | [], _ :: _ => true
  | _ :: _, [] => false
  | a :: as, b :: bs =>
    if a.toNat < b.toNat then true
    else if b.toNat < a.toNat then false
    else keyLt as bs

/-- Strict key order on strings. -/
def strLt (a b : String) : Bool := keyLt a.data b.data

/-- Whether a key lies past the `ExclusiveStartKey`. -/
def beyondKey : Option String → String → Bool
  | none, _ => true
  | some e, k => strLt e k

/-- One `query`/`scan` page: evaluate up to `min Limit pageSize` items that lie
past the continuation key and match the key condition (`keyOk`; for a scan it
is trivially true), then apply the filter expression `flt`; report a
`LastEvaluatedKey` when items remained unevaluated. -/
def runPage (ps : Nat) (limit : Option Nat) (rid : α → String)
    (keyOk flt : α → Bool) (esk : Option String) (tbl : List α) : Page α :=
  let cand := tbl.filter fun i => beyondKey esk (rid i) && keyOk i
  let n := match limit with
    | none => ps
    | some l => min l ps
  let ev := cand.take n
  { items := ev.filter flt
    lek := if cand.length ≤ n then none else
      match ev.getLast? with
      | some a => some (rid a)
      | none => none }

/-- `delete_item` by key: removes the item with that id. -/
def delById (rid : α → String) (tbl : List α) (k : String) : List α :=
  tbl.filter fun j => rid j != k

/-- Decrement a delete-failure schedule. -/
def tick : Option Nat → Option Nat
  | none => none
  | some n => some (n - 1)

/-- Result of deleting one page's items in sequence. -/
structure DelOut (α : Type) where
  tbl : List α
  count : Nat
  sched : Option Nat
  failed : Bool
  ids : List String
deriving Repr

/-- The body of the delete loop over one page: delete each listed item by id,
stopping (with an exception, `failed = true`) when the failure schedule runs
out. -/
def deletePage (rid : α → String) : List α → List α → Option Nat → DelOut α
  | tbl, [], sched => ⟨tbl, 0, sched, false, []⟩
  | tbl, it :: rest, sched =>
    if sched = some 0 then ⟨tbl, 0, some 0, true, []⟩
    else
      let out := deletePage rid (delById rid tbl (rid it)) rest (tick sched)
      ⟨out.tbl, out.count + 1, out.sched, out.failed, rid it :: out.ids⟩

/-- Outcome of a whole paginated delete sweep. -/
structure SweepOut (α : Type) where
  tbl : List α
  count : Nat
  failed : Bool
  ids : List String
deriving Repr

/-- The paginated sweep of `delete_all_user_activities` /
`delete_all_user_memories`: fetch a page (no `Limit`), delete its items one by
one, and follow the `LastEvaluatedKey` until it is absent or an exception
aborts the loop. `fuel` bounds the recursion; every use passes more fuel than
the table is long, which the lemmas below show is never exhausted. -/
def sweepRun (ps : Nat) (rid : α → String) (keyOk flt : α → Bool) :
    Nat → List α → Option String → Option Nat → SweepOut α
  | 0, tbl, _, _ => ⟨tbl, 0, true, []⟩
  | fuel + 1, tbl, esk, sched =>
    let pg := runPage ps none rid keyOk flt esk tbl
    let d := deletePage rid tbl pg.items sched
    if d.failed then ⟨d.tbl, d.count, true, d.ids⟩
    else
      match pg.lek with
      | none => ⟨d.tbl, d.count, false, d.ids⟩
      | some k =>
        let out := sweepRun ps rid keyOk flt fuel d.tbl (some k) d.sched
        ⟨out.tbl, d.count + out.count, out.failed, d.ids ++ out.ids⟩

/-- `put_item` (upsert by key) into a key-ordered table. -/
def putSorted (rid : α → String) : List α → α → List α
  | [], it => [it]
  | x :: xs, it =>
    if strLt (rid it) (rid x) then it :: x :: xs
    else if rid it == rid x then it :: xs
    else x :: putSorted rid xs it

/-! ## Filter expressions (`boto3.dynamodb.conditions.Attr`) -/

/-- The condition expressions `get_activity_logs` builds:
`Attr("user_name").eq`, `Attr("activityType").eq`, `Attr("timestamp").gte`,
`Attr("timestamp").lte`, and conjunction `&`. -/
inductive Cond : Type where
  | userEq : String → Cond
  | typeEq : String → Cond
  | tsGte : String → Cond
  | tsLte : String → Cond
  | and : Cond → Cond → Cond
deriving Repr

/-- Evaluation of a condition against an item (DynamoDB string comparison
is lexicographic; an absent attribute never matches). -/
def evalCond : Cond → Item → Bool
  | Cond.userEq v, i => i.user_name == some v
  | Cond.typeEq v, i => i.activityType == v
  | Cond.tsGte v, i => decide (v ≤ i.timestamp)
  | Cond.tsLte v, i => decide (i.timestamp ≤ v)
  | Cond.and a b, i => evalCond a i && evalCond b i

/-- An optional filter expression (absent means no filtering). -/
def evalOptCond : Option Cond → Item → Bool
  | none, _ => true
  | some c, i => evalCond c i

/-- The source's fold of `filter_expressions` with `&`:
`filter_expr = l[0]; for e in l[1:]: filter_expr = filter_expr & e`. -/
def combineConds : List Cond → Option Cond
  | [] => none
  | c :: cs => some (cs.foldl Cond.and c)

/-- The optional `activityType`/`timestamp` conditions of `get_activity_logs`,
in the order the source appends them. -/
def condList (activity_type start_date end_date : Option String) : List Cond :=
  (match activity_type with | some t => [Cond.typeEq t] | none => []) ++
  (match start_date with | some s => [Cond.tsGte s] | none => []) ++
  (match end_date with | some e => [Cond.tsLte e] | none => [])

/-! ## Store calls (the trace an operation leaves) -/

/-- A read request as `get_activity_logs` assembles it: `query` on the
`user_name-index` GSI (with its key condition) or a `scan`, an optional
filter expression, the page `Limit`, the `ConsistentRead` flag and an
`ExclusiveStartKey`. -/
structure PageReq where
  useIndex : Bool
  keyUser : Option String
  filter : Option Cond
  limit : Option Nat
  consistentRead : Bool
  esk : Option String
deriving Repr

/-- A store call an operation performed. -/
inductive StoreCall : Type where
  | pageRead : PageReq → StoreCall
  | putItem : String → StoreCall
  | delItem : String → StoreCall
deriving Repr

/-- The key condition of a request: `Key("user_name").eq(u)` on the GSI,
trivial for a scan. -/
def reqKeyOk (req : PageReq) (i : Item) : Bool :=
  match req.keyUser with
  | none => true
  | some u => i.user_name == some u

/-- Run one read request against the ActivityLog store. -/
def runPageReq (env : StoreEnv Item) (req : PageReq) : Page Item :=
  runPage env.pageSize req.limit Item.id (reqKeyOk req) (evalOptCond req.filter)
    req.esk env.table

/-! ## The per-type payload models with their declared pydantic bounds -/

/-- `FatBreakdown` (floats modelled by rationals; no declared bounds). -/
structure FatBreakdown where
  saturated_g : Rat
  monounsaturated_g : Rat
  polyunsaturated_g : Rat
  trans_g : Rat
deriving Repr

/-- `MacroNutrients` (fields with `Field(None, ...)` defaults are optional). -/
structure MacroNutrients where
  calories : Rat
  protein_g : Rat
  carbs_g : Rat
  fat_g : Rat
  fat_breakdown : Option FatBreakdown
  fiber_g : Option Rat
  sugar_g : Option Rat
deriving Repr

/-- `ProcessedDataDrinkAndFood`: nutritional payload;
`glycemic_load` is declared `ge=0, le=50`. -/
structure ProcessedDataDrinkAndFood where
  description : String
  estimated_portion_size : Option String
  macro_nutrients : MacroNutrients
  micro_nutrients : List (String × String)
  glycemic_load : Int
deriving Repr

/-- `ProcessedDataExercise`: `duration_min` is declared `ge=1`. -/
structure ProcessedDataExercise where
  duration_min : Int
  exercise_type : String
  intensity : Option String
deriving Repr

/-- `ProcessedDataSleep`: `duration_hours` is declared `ge=0, le=24`. -/
structure ProcessedDataSleep where
  duration_hours : Rat
  quality : Option String
  notes : Option String
deriving Repr

/-- `ProcessedDataSupplement`: `dosage` is declared `ge=0`. -/
structure ProcessedDataSupplement where
  name : String
  dosage : Rat
  unit : String
  notes : Option String
deriving Repr

/-- The declared `Field` constraints of `ProcessedDataDrinkAndFood`, as the
pydantic boundary enforces them before the tool body runs. -/
def ProcessedDataDrinkAndFood.valid (p : ProcessedDataDrinkAndFood) : Bool :=
  decide (0 ≤ p.glycemic_load) && decide (p.glycemic_load ≤ 50)

/-- The declared `Field` constraints of `ProcessedDataExercise`. -/
def ProcessedDataExercise.valid (p : ProcessedDataExercise) : Bool :=
  decide (1 ≤ p.duration_min)

/-- The declared `Field` constraints of `ProcessedDataSupplement`. -/
def ProcessedDataSupplement.valid (p : ProcessedDataSupplement) : Bool :=
  decide (0 ≤ p.dosage)

/-- JSON image of an optional string (`None` serializes to `null`). -/
def jOptStr : Option String → JVal
  | none => JVal.jnull
  | some s => JVal.jstr s

/-- JSON image of an optional number. -/
def jOptNum : Option Rat → JVal
  | none => JVal.jnull
  | some q => JVal.jnum q

/-- `FatBreakdown.model_dump()`. -/
def FatBreakdown.model_dump (f : FatBreakdown) : JVal :=
  JVal.jobj [("saturated_g", JVal.jnum f.saturated_g),
    ("monounsaturated_g", JVal.jnum f.monounsaturated_g),
    ("polyunsaturated_g", JVal.jnum f.polyunsaturated_g),
    ("trans_g", JVal.jnum f.trans_g)]

/-- `MacroNutrients.model_dump()`. -/
def MacroNutrients.model_dump (m : MacroNutrients) : JVal :=
  JVal.jobj [("calories", JVal.jnum m.calories),
    ("protein_g", JVal.jnum m.protein_g),
    ("carbs_g", JVal.jnum m.carbs_g),
    ("fat_g", JVal.jnum m.fat_g),
    ("fat_breakdown",
      match m.fat_breakdown with
      | none => JVal.jnull
      | some fb => fb.model_dump),
    ("fiber_g", jOptNum m.fiber_g),
    ("sugar_g", jOptNum m.sugar_g)]

/-- `ProcessedDataDrinkAndFood.model_dump()`: the structured payload the
create operation serializes into the `processedData` attribute. -/
def ProcessedDataDrinkAndFood.model_dump (p : ProcessedDataDrinkAndFood) : JVal :=
  JVal.jobj [("description", JVal.jstr p.description),
    ("estimated_portion_size", jOptStr p.estimated_portion_size),
    ("macro_nutrients", p.macro_nutrients.model_dump),
    ("micro_nutrients",
      JVal.jobj (p.micro_nutrients.map fun kv => (kv.1, JVal.jstr kv.2))),
    ("glycemic_load", JVal.jnum (p.glycemic_load : Rat))]

/-- `ProcessedDataExercise.model_dump()`. -/
def ProcessedDataExercise.model_dump (p : ProcessedDataExercise) : JVal :=
  JVal.jobj [("duration_min", JVal.jnum (p.duration_min : Rat)),
    ("exercise_type", JVal.jstr p.exercise_type),
    ("intensity", jOptStr p.intensity)]

/-- `ProcessedDataSleep.model_dump()`. -/
def ProcessedDataSleep.model_dump (p : ProcessedDataSleep) : JVal :=
  JVal.jobj [("duration_hours", JVal.jnum p.duration_hours),
    ("quality", jOptStr p.quality),
    ("notes", jOptStr p.notes)]

/-- `ProcessedDataSupplement.model_dump()`. -/
def ProcessedDataSupplement.model_dump (p : ProcessedDataSupplement) : JVal :=
  JVal.jobj [("name", JVal.jstr p.name),
    ("dosage", JVal.jnum p.dosage),
    ("unit", JVal.jstr p.unit),
    ("notes", jOptStr p.notes)]

/-! ## Result envelopes (the shapes `json.dumps` produces in the source) -/

/-- `FoodAndDrinkActivityTypes` enumeration. -/
inductive FoodAndDrinkActivityTypes : Type where
  | food : FoodAndDrinkActivityTypes
  | drink : FoodAndDrinkActivityTypes
deriving Repr, DecidableEq

/-- The `.value` of the enumeration member. -/
def FoodAndDrinkActivityTypes.value : FoodAndDrinkActivityTypes → String
  | FoodAndDrinkActivityTypes.food => "food"
  | FoodAndDrinkActivityTypes.drink => "drink"

/-- Envelope of a create operation:
`{"success": true, "message": ..., "data": item}` or
`{"success": false, "error": ...}`. -/
inductive CreateResult : Type where
  | ok : String → Item → CreateResult
  | err : String → CreateResult
deriving Repr

/-- The deserialized form of a stored `processedData` string as
`get_activity_logs` returns it: the parsed object when `json.loads`
succeeds, the raw string untouched otherwise. -/
inductive PDOut : Type where
  | obj : JVal → PDOut
  | str : DBStr → PDOut
deriving Repr

/-- An item as `get_activity_logs` returns it (the `processedData`
attribute replaced by its parsed form when parseable). -/
structure OutItem where
  id : String
  timestamp : String
  activityType : String
  rawInput : String
  createdAt : String
  updatedAt : String
  processedData : Option PDOut
  user_name : Option String
deriving Repr

/-- Envelope of `get_activity_logs`:
`{"success": true, "count": N, "data": [...]}` or
`{"success": false, "error": ...}`. -/
inductive GetLogsResult : Type where
  | ok : Nat → List OutItem → GetLogsResult
  | err : String → GetLogsResult
deriving Repr

/-- Envelope of `delete_activity_log`: success with the deleted item's prior
state, the distinct not-found outcome (`success: false` with a `message` and
no `error` key), or a caught store error (`success: false` with `error`). -/
inductive DeleteOneResult : Type where
  | ok : String → Item → DeleteOneResult
  | notFound : String → DeleteOneResult
  | err : String → DeleteOneResult
deriving Repr

/-- Envelope of the bulk delete operations:
`{"success": true, "message": ..., "deleted_count": N, "user_name": u}` or
`{"success": false, "error": ...}`. -/
inductive DeleteAllResult : Type where
  | ok : String → Nat → String → DeleteAllResult
  | err : String → DeleteAllResult
deriving Repr

/-! ## The operations of `src/main.py` -/

/-- Python's `timestamp or now`: an absent or empty timestamp argument is
replaced by the current time. -/
def pyOr (s : Option String) (d : String) : String :=
  match s with
  | none => d
  | some t => if t == "" then d else t

/-- `create_food_or_drink_activity_log`: builds the item (serializing
`processed_data`, setting `user_name` unconditionally) and puts it; a store
failure is caught and returned as the error envelope. `item_id` and `now`
stand for the generated time-based id and the current UTC time. -/
def create_food_or_drink_activity_log (env : StoreEnv Item)
    (activity_type : FoodAndDrinkActivityTypes) (raw_input : String)
    (processed_data : ProcessedDataDrinkAndFood) (user_name : String)
    (timestamp : Option String) (item_id now : String) :
    CreateResult × List Item × List StoreCall :=
  if env.failPut then (CreateResult.err "put_item failed", env.table, [])
  else
    let item : Item :=
      { id := item_id, timestamp := pyOr timestamp now
        activityType := activity_type.value, rawInput := raw_input
        createdAt := now, updatedAt := now
        processedData := some (jsonDumps processed_data.model_dump)
        user_name := some user_name }
    (CreateResult.ok "Activity log created successfully" item,
      putSorted Item.id env.table item, [StoreCall.putItem item_id])

/-- `create_exercise_activity_log`: like the food/drink create
(`user_name` set unconditionally), with the exercise payload. -/
def create_exercise_activity_log (env : StoreEnv Item) (raw_input : String)
    (processed_data : ProcessedDataExercise) (user_name : String)
    (timestamp : Option String) (activity_type : String := "exercise")
    (item_id : String := "") (now : String := "") :
    CreateResult × List Item × List StoreCall :=
  if env.failPut then (CreateResult.err "put_item failed", env.table, [])
  else
    let item : Item :=
      { id := item_id, timestamp := pyOr timestamp now
        activityType := activity_type, rawInput := raw_input
        createdAt := now, updatedAt := now
        processedData := some (jsonDumps processed_data.model_dump)
        user_name := some user_name }
    (CreateResult.ok "Exercise log created successfully" item,
      putSorted Item.id env.table item, [StoreCall.putItem item_id])

/-- `create_sleep_activity_log`: the `user_name` attribute is set only under
`if user_name:`, so an empty owner string leaves the attribute absent. -/
def create_sleep_activity_log (env : StoreEnv Item) (raw_input : String)
    (processed_data : ProcessedDataSleep) (user_name : String)
    (timestamp : Option String) (activity_type : String := "sleep")
    (item_id : String := "") (now : String := "") :
    CreateResult × List Item × List StoreCall :=
  if env.failPut then (CreateResult.err "put_item failed", env.table, [])
  else
    let item : Item :=
      { id := item_id, timestamp := pyOr timestamp now
        activityType := activity_type, rawInput := raw_input
        createdAt := now, updatedAt := now
        processedData := some (jsonDumps processed_data.model_dump)
        user_name := if user_name == "" then none else some user_name }
    (CreateResult.ok "Sleep log created successfully" item,
      putSorted Item.id env.table item, [StoreCall.putItem item_id])

/-- `create_supplement_activity_log`: the `user_name` attribute is guarded by
`if user_name:` as in the sleep create. -/
def create_supplement_activity_log (env : StoreEnv Item) (raw_input : String)
    (processed_data : ProcessedDataSupplement) (user_name : String)
    (timestamp : Option String) (activity_type : String := "supplement")
    (item_id : String := "") (now : String := "") :
    CreateResult × List Item × List StoreCall :=
  if env.failPut then (CreateResult.err "put_item failed", env.table, [])
  else
    let item : Item :=
      { id := item_id, timestamp := pyOr timestamp now
        activityType := activity_type, rawInput := raw_input
        createdAt := now, updatedAt := now
        processedData := some (jsonDumps processed_data.model_dump)
        user_name := if user_name == "" then none else some user_name }
    (CreateResult.ok "Supplement log created successfully" item,
      putSorted Item.id env.table item, [StoreCall.putItem item_id])

/-- Acceptance or rejection at the tool boundary: pydantic validates the
declared `Field` constraints before the tool body runs. -/
inductive Validated (α : Type) : Type where
  | rejected : Validated α
  | accepted : α → Validated α
deriving Repr

/-- The food/drink create as called through the tool boundary: a payload
violating a declared bound is rejected before any store call. -/
def call_create_food_or_drink_activity_log (env : StoreEnv Item)
    (activity_type : FoodAndDrinkActivityTypes) (raw_input : String)
    (processed_data : ProcessedDataDrinkAndFood) (user_name : String)
    (timestamp : Option String) (item_id now : String) :
    Validated CreateResult × List Item × List StoreCall :=
  if processed_data.valid then
    let r := create_food_or_drink_activity_log env activity_type raw_input
      processed_data user_name timestamp item_id now
    (Validated.accepted r.1, r.2.1, r.2.2)
  else (Validated.rejected, env.table, [])

/-- The exercise create as called through the tool boundary. -/
def call_create_exercise_activity_log (env : StoreEnv Item) (raw_input : String)
    (processed_data : ProcessedDataExercise) (user_name : String)
    (timestamp : Option String) (activity_type item_id now : String) :
    Validated CreateResult × List Item × List StoreCall :=
  if processed_data.valid then
    let r := create_exercise_activity_log env raw_input processed_data user_name
      timestamp activity_type item_id now
    (Validated.accepted r.1, r.2.1, r.2.2)
  else (Validated.rejected, env.table, [])

/-- The supplement create as called through the tool boundary. -/
def call_create_supplement_activity_log (env : StoreEnv Item) (raw_input : String)
    (processed_data : ProcessedDataSupplement) (user_name : String)
    (timestamp : Option String) (activity_type item_id now : String) :
    Validated CreateResult × List Item × List StoreCall :=
  if processed_data.valid then
    let r := create_supplement_activity_log env raw_input processed_data user_name
      timestamp activity_type item_id now
    (Validated.accepted r.1, r.2.1, r.2.2)
  else (Validated.rejected, env.table, [])

/-- The query request of `get_activity_logs` on the `user_name-index` GSI:
key condition on the owner, `Limit`, and the optional
type/start/end conditions folded with `&` as the filter expression. -/
def getLogsIndexedReq (u : String) (activity_type start_date end_date : Option String)
    (limit : Nat) : PageReq :=
  { useIndex := true, keyUser := some u
    filter := combineConds (condList activity_type start_date end_date)
    limit := some limit, consistentRead := false, esk := none }

/-- The fallback scan request of `get_activity_logs`: `ConsistentRead=True`
and the owner equality prepended to the same optional conditions. -/
def getLogsFallbackReq (u : String) (activity_type start_date end_date : Option String)
    (limit : Nat) : PageReq :=
  { useIndex := false, keyUser := none
    filter := combineConds (Cond.userEq u :: condList activity_type start_date end_date)
    limit := some limit, consistentRead := true, esk := none }

/-- The scan request of `get_activity_logs` when no owner filter is given. -/
def getLogsScanReq (activity_type start_date end_date : Option String)
    (limit : Nat) : PageReq :=
  { useIndex := false, keyUser := none
    filter := combineConds (condList activity_type start_date end_date)
    limit := some limit, consistentRead := true, esk := none }

/-- Parse a stored `processedData` string back: the parsed object when
`json.loads` succeeds, the raw string passed through otherwise. -/
def parsePD (s : DBStr) : PDOut :=
  match jsonLoads s with
  | some j => PDOut.obj j
  | none => PDOut.str s

/-- The per-item post-processing of `get_activity_logs`. -/
def postItem (i : Item) : OutItem :=
  { id := i.id, timestamp := i.timestamp, activityType := i.activityType
    rawInput := i.rawInput, createdAt := i.createdAt, updatedAt := i.updatedAt
    processedData := i.processedData.map parsePD
    user_name := i.user_name }

/-- `get_activity_logs`: with an owner, try the GSI query; a failure of the
indexed path is caught locally and answered by a strongly consistent scan
carrying the owner equality in its filter; without an owner, scan. One page
only — no continuation token is ever followed. Reads leave no table change. -/
def get_activity_logs (env : StoreEnv Item) (user_name : Option String)
    (activity_type : Option String) (limit : Nat := 50)
    (start_date : Option String := none) (end_date : Option String := none) :
    GetLogsResult × List StoreCall :=
  match user_name with
  | some u =>
    if env.gsiOk then
      let req := getLogsIndexedReq u activity_type start_date end_date limit
      let pg := runPageReq env req
      (GetLogsResult.ok pg.items.length (pg.items.map postItem),
        [StoreCall.pageRead req])
    else if env.failScan then (GetLogsResult.err "scan failed", [])
    else
      let req := getLogsFallbackReq u activity_type start_date end_date limit
      let pg := runPageReq env req
      (GetLogsResult.ok pg.items.length (pg.items.map postItem),
        [StoreCall.pageRead req])
  | none =>
    if env.failScan then (GetLogsResult.err "scan failed", [])
    else
      let req := getLogsScanReq activity_type start_date end_date limit
      let pg := runPageReq env req
      (GetLogsResult.ok pg.items.length (pg.items.map postItem),
        [StoreCall.pageRead req])

/-- `get_activity_logs` as called through the tool boundary: pydantic
rejects a `limit` outside the declared `ge=1, le=100` (default 50). -/
def call_get_activity_logs (env : StoreEnv Item) (user_name : Option String)
    (activity_type : Option String) (limit : Nat := 50)
    (start_date : Option String := none) (end_date : Option String := none) :
    Validated (GetLogsResult × List StoreCall) :=
  if 1 ≤ limit ∧ limit ≤ 100 then
    Validated.accepted
      (get_activity_logs env user_name activity_type limit start_date end_date)
  else Validated.rejected

/-- `delete_activity_log`: unconditional `delete_item` by primary key with
`ReturnValues="ALL_OLD"`; an absent item is the reported not-found outcome,
an exception the error envelope. -/
def delete_activity_log (env : StoreEnv Item) (activity_id : String) :
    DeleteOneResult × List Item × List StoreCall :=
  if env.deleteFailAfter = some 0 then
    (DeleteOneResult.err "delete_item failed", env.table, [])
  else
    match env.table.find? (fun i => i.id == activity_id) with
    | some prior =>
      (DeleteOneResult.ok
        ("Activity log " ++ activity_id ++ " deleted successfully") prior,
        delById Item.id env.table activity_id, [StoreCall.delItem activity_id])
    | none =>
      (DeleteOneResult.notFound ("Activity log " ++ activity_id ++ " not found"),
        env.table, [StoreCall.delItem activity_id])

/-- `Attr("user_name").eq(u)` on an ActivityLog item. -/
def ownerIs (u : String) (i : Item) : Bool := i.user_name == some u

/-- `Attr("user_name").eq(u)` on a MemoryEntry item. -/
def memOwnerIs (u : String) (m : MemItem) : Bool := m.user_name == some u

/-- Wrap a finished sweep in the bulk-delete envelope: the error envelope
when an exception aborted it, else success with the deleted count. -/
def sweepEnvelope (msgTail user_name : String) (out : SweepOut α) :
    DeleteAllResult × List α × List StoreCall :=
  if out.failed then
    (DeleteAllResult.err "delete_item failed", out.tbl,
      out.ids.map StoreCall.delItem)
  else
    (DeleteAllResult.ok ("Deleted " ++ toString out.count ++ msgTail)
      out.count user_name,
      out.tbl, out.ids.map StoreCall.delItem)

/-- `delete_all_user_activities`: query the GSI (or fall back to a strongly
consistent scan when it fails), then delete every matching record by id,
following the continuation token until exhausted; any exception is caught
into the error envelope. -/
def delete_all_user_activities (env : StoreEnv Item) (user_name : String) :
    DeleteAllResult × List Item × List StoreCall :=
  if env.gsiOk then
    sweepEnvelope (" activity log(s) for user " ++ user_name) user_name
      (sweepRun env.pageSize Item.id (ownerIs user_name) (fun _ => true)
        (env.table.length + 1) env.table none env.deleteFailAfter)
  else if env.failScan then
    (DeleteAllResult.err "scan failed", env.table, [])
  else
    sweepEnvelope (" activity log(s) for user " ++ user_name) user_name
      (sweepRun env.pageSize Item.id (fun _ => true) (ownerIs user_name)
        (env.table.length + 1) env.table none env.deleteFailAfter)

/-- `delete_all_user_memories`: the same index-then-fallback sweep over the
MemoryEntry table. -/
def delete_all_user_memories (env : StoreEnv MemItem) (user_name : String) :
    DeleteAllResult × List MemItem × List StoreCall :=
  if env.gsiOk then
    sweepEnvelope (" memory entry(s) for user " ++ user_name) user_name
      (sweepRun env.pageSize MemItem.id (memOwnerIs user_name) (fun _ => true)
        (env.table.length + 1) env.table none env.deleteFailAfter)
  else if env.failScan then
    (DeleteAllResult.err "scan failed", env.table, [])
  else
    sweepEnvelope (" memory entry(s) for user " ++ user_name) user_name
      (sweepRun env.pageSize MemItem.id (fun _ => true) (memOwnerIs user_name)
        (env.table.length + 1) env.table none env.deleteFailAfter)

/-! ## Envelope shapes -/

/-- The keys an envelope carries, for stating the uniform-envelope contract. -/
structure EnvShape where
  success : Bool
  hasData : Bool
  hasCount : Bool
  hasMessage : Bool
  hasError : Bool
  hasDeletedItem : Bool
  hasDeletedCount : Bool
deriving Repr, DecidableEq

/-- Shape of a create envelope. -/
def CreateResult.shape : CreateResult → EnvShape
  | CreateResult.ok _ _ => ⟨true, true, false, true, false, false, false⟩
  | CreateResult.err _ => ⟨false, false, false, false, true, false, false⟩

/-- Shape of a `get_activity_logs` envelope. -/
def GetLogsResult.shape : GetLogsResult → EnvShape
  | GetLogsResult.ok _ _ => ⟨true, true, true, false, false, false, false⟩
  | GetLogsResult.err _ => ⟨false, false, false, false, true, false, false⟩

/-- Shape of a `delete_activity_log` envelope. -/
def DeleteOneResult.shape : DeleteOneResult → EnvShape
  | DeleteOneResult.ok _ _ => ⟨true, false, false, true, false, true, false⟩
  | DeleteOneResult.notFound _ => ⟨false, false, false, true, false, false, false⟩
  | DeleteOneResult.err _ => ⟨false, false, false, false, true, false, false⟩

/-- Shape of a bulk-delete envelope. -/
def DeleteAllResult.shape : DeleteAllResult → EnvShape
  | DeleteAllResult.ok _ _ _ => ⟨true, false, false, true, false, false, true⟩
  | DeleteAllResult.err _ => ⟨false, false, false, false, true, false, false⟩

/-! ## Order and bookkeeping lemmas -/

theorem keyLt_irrefl : ∀ l : List Char, keyLt l l = false
  | [] => rfl
  | _ :: as => by simp [keyLt, keyLt_irrefl as]

theorem keyLt_asymm : ∀ {a b : List Char}, keyLt a b = true → keyLt b a = false := by
  intro a
  induction a with
  | nil =>
    intro b h
    cases b with
    | nil => simp [keyLt] at h
    | cons y bs => simp [keyLt]
  | cons x as ih =>
    intro b h
    cases b with
    | nil => simp [keyLt] at h
    | cons y bs =>
      by_cases h1 : x.toNat < y.toNat
      · simp [keyLt, Nat.lt_asymm h1, h1]
      · by_cases h2 : y.toNat < x.toNat
        · simp [keyLt, h1, h2] at h
        · simp [keyLt, h1, h2] at h
          simp [keyLt, h1, h2, ih h]

theorem keyLt_trans : ∀ {a b c : List Char},
    keyLt a b = true → keyLt b c = true → keyLt a c = true := by
  intro a
  induction a with
  | nil =>
    intro b c h1 h2
    cases b with
    | nil => simp [keyLt] at h1
    | cons y bs =>
      cases c with
      | nil => simp [keyLt] at h2
      | cons z cs => simp [keyLt]
  | cons x as ih =>
    intro b c h1 h2
    cases b with
    | nil => simp [keyLt] at h1
    | cons y bs =>
      cases c with
      | nil => simp [keyLt] at h2
      | cons z cs =>
        by_cases hxy : x.toNat < y.toNat
        · by_cases hyz : y.toNat < z.toNat
          · simp [keyLt, Nat.lt_trans hxy hyz]
          · by_cases hzy : z.toNat < y.toNat
            · simp [keyLt, hyz, hzy] at h2
            · have e2 : y.toNat = z.toNat :=
                Nat.le_antisymm (Nat.not_lt.mp hzy) (Nat.not_lt.mp hyz)
              have hxz : x.toNat < z.toNat := e2 ▸ hxy
              simp [keyLt, hxz]
        · by_cases hyx : y.toNat < x.toNat
          · simp [keyLt, hxy, hyx] at h1
          · have e1 : x.toNat = y.toNat :=
              Nat.le_antisymm (Nat.not_lt.mp hyx) (Nat.not_lt.mp hxy)
            simp [keyLt, hxy, hyx] at h1
            by_cases hyz : y.toNat < z.toNat
            · have hxz : x.toNat < z.toNat := e1 ▸ hyz
              simp [keyLt, hxz]
            · by_cases hzy : z.toNat < y.toNat
              · simp [keyLt, hyz, hzy] at h2
              · have e2 : y.toNat = z.toNat :=
                  Nat.le_antisymm (Nat.not_lt.mp hzy) (Nat.not_lt.mp hyz)
                simp [keyLt, hyz, hzy] at h2
                have hxz : ¬ x.toNat < z.toNat := by omega
                have hzx : ¬ z.toNat < x.toNat := by omega
                simp [keyLt, hxz, hzx, ih h1 h2]

theorem strLt_irrefl (a : String) : strLt a a = false := keyLt_irrefl a.data

theorem strLt_asymm {a b : String} (h : strLt a b = true) : strLt b a = false :=
  keyLt_asymm h

theorem strLt_trans {a b c : String} (h1 : strLt a b = true) (h2 : strLt b c = true) :
    strLt a c = true := keyLt_trans h1 h2

/-- Membership of a key in a list of ids, as the sweeps delete by id. -/
def idIn (ids : List String) (k : String) : Bool := ids.any fun x => x == k

theorem idIn_nil (k : String) : idIn [] k = false := rfl

theorem idIn_cons (i : String) (ids : List String) (k : String) :
    idIn (i :: ids) k = ((i == k) || idIn ids k) := rfl

theorem idIn_append (a b : List String) (k : String) :
    idIn (a ++ b) k = (idIn a k || idIn b k) := by
  simp [idIn, List.any_append]

theorem idIn_eq_true_iff {ids : List String} {k : String} :
    idIn ids k = true ↔ k ∈ ids := by
  simp only [idIn, List.any_eq_true, beq_iff_eq]
  constructor
  · rintro ⟨x, hx, hxk⟩
    rw [hxk] at hx
    exact hx
  · intro h
    exact ⟨k, h, rfl⟩

/-- A delete-failure schedule that allows at least `n` more deletes. -/
def schedAtLeast : Option Nat → Nat → Prop
  | none, _ => True
  | some m, n => n ≤ m

/-- A schedule after `n` successful deletes. -/
def schedMinus : Option Nat → Nat → Option Nat
  | none, _ => none
  | some m, n => some (m - n)

/-- The table order invariant: strictly increasing ids (what DynamoDB's
unique primary key and deterministic scan order provide). -/
def SortedBy (rid : α → String) (l : List α) : Prop :=
  l.Pairwise fun a b => strLt (rid a) (rid b) = true

instance decSortedBy (rid : α → String) (l : List α) : Decidable (SortedBy rid l) :=
  inferInstanceAs (Decidable (l.Pairwise _))

theorem SortedBy.filter {rid : α → String} {l : List α} (h : SortedBy rid l)
    (p : α → Bool) : SortedBy rid (l.filter p) :=
  List.Pairwise.filter p h

theorem SortedBy.take {rid : α → String} {l : List α} (h : SortedBy rid l)
    (n : Nat) : SortedBy rid (l.take n) :=
  List.Pairwise.sublist (List.take_sublist n l) h

theorem sorted_rid_inj {rid : α → String} {l : List α} (hs : SortedBy rid l) :
    ∀ i ∈ l, ∀ j ∈ l, rid i = rid j → i = j := by
  induction l with
  | nil => intro i hi; cases hi
  | cons x rest ih =>
    intro i hi j hj hij
    rcases List.mem_cons.mp hi with hix | hi2
    · rcases List.mem_cons.mp hj with hjx | hj2
      · rw [hix, hjx]
      · subst hix
        have hlt := (List.pairwise_cons.mp hs).1 j hj2
        rw [hij] at hlt
        simp [strLt_irrefl] at hlt
    · rcases List.mem_cons.mp hj with hjx | hj2
      · subst hjx
        have hlt := (List.pairwise_cons.mp hs).1 i hi2
        rw [hij] at hlt
        simp [strLt_irrefl] at hlt
      · exact ih (List.pairwise_cons.mp hs).2 i hi2 j hj2 hij

theorem sorted_getLast_not_lt {rid : α → String} {l : List α} (hs : SortedBy rid l)
    (hne : l ≠ []) : ∀ a ∈ l, strLt (rid (l.getLast hne)) (rid a) = false := by
  induction l with
  | nil => cases hne rfl
  | cons x rest ih =>
    intro a ha
    cases rest with
    | nil =>
      rcases List.mem_singleton.mp ha with rfl
      simp [List.getLast, strLt_irrefl]
    | cons y t =>
      have hlast : (x :: y :: t).getLast hne = (y :: t).getLast (by simp) := by
        simp [List.getLast]
      rcases List.mem_cons.mp ha with rfl | ha
      · have hmem := List.getLast_mem (l := y :: t) (by simp)
        have := (List.pairwise_cons.mp hs).1 _ hmem
        rw [hlast]
        exact strLt_asymm this
      · rw [hlast]
        exact ih (List.pairwise_cons.mp hs).2 (by simp) a ha

theorem beq_str_comm (a b : String) : (a == b) = (b == a) := by
  by_cases h : a = b
  · subst h; rfl
  · have h2 : ¬ b = a := fun e => h e.symm
    simp [h, h2]

/-! ## Characterization of one page's delete loop -/

theorem deletePage_ok {α : Type} (rid : α → String) :
    ∀ (P tbl : List α) (sched : Option Nat), schedAtLeast sched P.length →
      deletePage rid tbl P sched =
        ⟨tbl.filter (fun j => !(idIn (P.map rid) (rid j))), P.length,
          schedMinus sched P.length, false, P.map rid⟩ := by
  intro P
  induction P with
  | nil =>
    intro tbl sched _
    cases sched <;> simp [deletePage, idIn, schedMinus]
  | cons it rest ih =>
    intro tbl sched h
    have hne : ¬ sched = some 0 := by
      cases sched with
      | none => simp
      | some m =>
        simp only [schedAtLeast, List.length_cons] at h
        simp
        omega
    have hsched : schedAtLeast (tick sched) rest.length := by
      cases sched with
      | none => trivial
      | some m =>
        simp only [schedAtLeast, List.length_cons] at h
        simp only [tick, schedAtLeast]
        omega
    have hpred : ∀ j, (!(idIn (rest.map rid) (rid j)) && (rid j != rid it))
        = !(idIn ((it :: rest).map rid) (rid j)) := by
      intro j
      simp only [List.map_cons, idIn_cons, Bool.not_or, bne]
      rw [beq_str_comm (rid it) (rid j), Bool.and_comm]
    simp only [deletePage, if_neg hne]
    rw [ih (delById rid tbl (rid it)) (tick sched) hsched]
    simp only [delById]
    rw [List.filter_filter]
    simp only [DelOut.mk.injEq, List.length_cons, List.map_cons]
    refine ⟨List.filter_congr fun j _ => hpred j, trivial, ?_, trivial, trivial⟩
    cases sched with
    | none => rfl
    | some m =>
      simp only [tick, schedMinus]
      congr 1
      omega

theorem deletePage_fail {α : Type} (rid : α → String) :
    ∀ (P tbl : List α) (m : Nat), m < P.length →
      deletePage rid tbl P (some m) =
        ⟨tbl.filter (fun j => !(idIn ((P.take m).map rid) (rid j))), m, some 0, true,
          (P.take m).map rid⟩ := by
  intro P
  induction P with
  | nil =>
    intro tbl m hm
    simp at hm
  | cons it rest ih =>
    intro tbl m hm
    cases m with
    | zero => simp [deletePage, idIn]
    | succ m =>
      have hne : ¬ (some (m + 1) : Option Nat) = some 0 := by simp
      have hm2 : m < rest.length := by
        simp only [List.length_cons] at hm
        omega
      have hpred : ∀ j, (!(idIn ((rest.take m).map rid) (rid j)) && (rid j != rid it))
          = !(idIn ((it :: rest.take m).map rid) (rid j)) := by
        intro j
        simp only [List.map_cons, idIn_cons, Bool.not_or, bne]
        rw [beq_str_comm (rid it) (rid j), Bool.and_comm]
      simp only [deletePage, if_neg hne, tick]
      have htick : (m + 1 - 1) = m := by omega
      rw [htick, ih (delById rid tbl (rid it)) m hm2]
      simp only [delById]
      rw [List.filter_filter]
      simp only [DelOut.mk.injEq, List.take_succ_cons, List.map_cons]
      exact ⟨List.filter_congr fun j _ => hpred j, trivial, trivial, trivial, trivial⟩

/-! ## Characterization of one read page -/

/-- The candidate list a page evaluates: the items past the continuation key
that match the key condition. -/
def pageCand (rid : α → String) (keyOk : α → Bool) (esk : Option String)
    (tbl : List α) : List α :=
  tbl.filter fun i => beyondKey esk (rid i) && keyOk i

theorem runPage_none_of_le {α : Type} {rid : α → String} {keyOk : α → Bool}
    (flt : α → Bool) {esk : Option String} {tbl : List α} {ps : Nat}
    (h : (pageCand rid keyOk esk tbl).length ≤ ps) :
    runPage ps none rid keyOk flt esk tbl =
      ⟨(pageCand rid keyOk esk tbl).filter flt, none⟩ := by
  unfold pageCand at h
  simp only [runPage]
  rw [List.take_of_length_le h]
  simp [pageCand, h]

theorem runPage_none_of_gt {α : Type} {rid : α → String} {keyOk : α → Bool}
    (flt : α → Bool) {esk : Option String} {tbl : List α} {ps : Nat}
    (h : ps < (pageCand rid keyOk esk tbl).length) :
    runPage ps none rid keyOk flt esk tbl =
      ⟨((pageCand rid keyOk esk tbl).take ps).filter flt,
        ((pageCand rid keyOk esk tbl).take ps).getLast?.map rid⟩ := by
  unfold pageCand at h
  have hnot : ¬ (List.filter (fun i => beyondKey esk (rid i) && keyOk i) tbl).length ≤ ps :=
    Nat.not_le.mpr h
  simp only [runPage, pageCand]
  rw [if_neg hnot]
  cases hl : (List.filter (fun i => beyondKey esk (rid i) && keyOk i) tbl).take ps
    |>.getLast? with
  | none => simp [hl]
  | some a => simp [hl]

/-! ## The exhaustive sweep: success characterization -/

theorem pageCand_after_delete {α : Type} {rid : α → String} {keyOk : α → Bool}
    {esk : Option String} {tbl : List α} {ps : Nat} (hs : SortedBy rid tbl)
    (hgt : ps < (pageCand rid keyOk esk tbl).length)
    {P1 : List α}
    (hP1 : P1 ⊆ (pageCand rid keyOk esk tbl).take ps)
    (hne : (pageCand rid keyOk esk tbl).take ps ≠ []) :
    pageCand rid keyOk
        (some (rid (((pageCand rid keyOk esk tbl).take ps).getLast hne)))
        (tbl.filter (fun j => !(idIn (P1.map rid) (rid j)))) =
      (pageCand rid keyOk esk tbl).drop ps := by
  set M := pageCand rid keyOk esk tbl with hM
  set ev := M.take ps with hev
  set k := rid (ev.getLast hne) with hk
  have hsM : SortedBy rid M := hs.filter _
  have htd : ev ++ M.drop ps = M := List.take_append_drop ps M
  have hcross : ∀ a ∈ ev, ∀ b ∈ M.drop ps, strLt (rid a) (rid b) = true := by
    have h2 : (ev ++ M.drop ps).Pairwise fun a b => strLt (rid a) (rid b) = true := by
      rw [htd]; exact hsM
    exact (List.pairwise_append.mp h2).2.2
  have hklast : ∀ a ∈ ev, strLt k (rid a) = false :=
    sorted_getLast_not_lt (hsM.take ps) hne
  have hkdrop : ∀ b ∈ M.drop ps, strLt k (rid b) = true :=
    fun b hb => hcross _ (List.getLast_mem hne) b hb
  have hb1 : M.filter (fun i => strLt k (rid i)) = M.drop ps := by
    conv_lhs => rw [← htd]
    rw [List.filter_append]
    have h1 : ev.filter (fun i => strLt k (rid i)) = [] := by
      rw [List.filter_eq_nil_iff]
      intro a ha
      simp [hklast a ha]
    have h2 : (M.drop ps).filter (fun i => strLt k (rid i)) = M.drop ps :=
      List.filter_eq_self.mpr fun a ha => hkdrop a ha
    rw [h1, h2, List.nil_append]
  have hbk : ∀ i, strLt k (rid i) = true → beyondKey esk (rid i) = true := by
    intro i hi
    cases esk with
    | none => rfl
    | some e =>
      have hgm : ev.getLast hne ∈ M := List.take_subset ps M (List.getLast_mem hne)
      have hpm := List.of_mem_filter hgm
      have hek : strLt e k = true := by
        have := (Bool.and_elim_left hpm)
        simpa [beyondKey] using this
      exact strLt_trans hek hi
  have hid1 : ∀ i, strLt k (rid i) = true → idIn (P1.map rid) (rid i) = false := by
    intro i hi
    by_contra hcon
    have htrue : idIn (P1.map rid) (rid i) = true := by
      cases h0 : idIn (P1.map rid) (rid i) with
      | true => rfl
      | false => exact absurd h0 hcon
    rcases List.mem_map.mp (idIn_eq_true_iff.mp htrue) with ⟨x, hx, hxi⟩
    have hxev : x ∈ ev := hP1 hx
    have := hklast x hxev
    rw [hxi] at this
    rw [this] at hi
    cases hi
  have hbsome : ∀ (s t : String), beyondKey (some s) t = strLt s t := fun _ _ => rfl
  unfold pageCand
  rw [List.filter_filter]
  have hstep : tbl.filter
      (fun i => beyondKey (some k) (rid i) && keyOk i && !(idIn (P1.map rid) (rid i)))
      = tbl.filter (fun i => strLt k (rid i) && (beyondKey esk (rid i) && keyOk i)) := by
    apply List.filter_congr
    intro i _
    by_cases hk2 : strLt k (rid i) = true
    · simp [hbsome, hk2, hbk i hk2, hid1 i hk2]
    · have hk3 : strLt k (rid i) = false := by
        cases h0 : strLt k (rid i) with
        | true => exact absurd h0 hk2
        | false => rfl
      simp [hbsome, hk3]
  rw [hstep, ← List.filter_filter]
  exact hb1

theorem sweepRun_ok {α : Type} (ps : Nat) (rid : α → String) (keyOk flt : α → Bool)
    (hps : 1 ≤ ps) :
    ∀ (fuel : Nat) (tbl : List α) (esk : Option String),
      SortedBy rid tbl →
      (pageCand rid keyOk esk tbl).length < fuel →
      sweepRun ps rid keyOk flt fuel tbl esk none =
        ⟨tbl.filter (fun i =>
            !(idIn (((pageCand rid keyOk esk tbl).filter flt).map rid) (rid i))),
          ((pageCand rid keyOk esk tbl).filter flt).length, false,
          ((pageCand rid keyOk esk tbl).filter flt).map rid⟩ := by
  intro fuel
  induction fuel with
  | zero =>
    intro tbl esk _ hf
    exact absurd hf (Nat.not_lt_zero _)
  | succ fuel ih =>
    intro tbl esk hs hf
    by_cases hle : (pageCand rid keyOk esk tbl).length ≤ ps
    · have hrp := runPage_none_of_le flt hle
      have hdp := deletePage_ok rid ((pageCand rid keyOk esk tbl).filter flt)
        tbl none trivial
      simp only [sweepRun, hrp, hdp, schedMinus]
      simp
    · have hgt : ps < (pageCand rid keyOk esk tbl).length := Nat.not_le.mp hle
      set M := pageCand rid keyOk esk tbl with hM
      have hevlen : (M.take ps).length = ps := by
        rw [List.length_take]
        omega
      have hevne : M.take ps ≠ [] := by
        intro h0
        rw [h0] at hevlen
        simp at hevlen
        omega
      have hlast : (M.take ps).getLast? = some ((M.take ps).getLast hevne) :=
        List.getLast?_eq_getLast _ hevne
      have hrp := runPage_none_of_gt flt hgt
      rw [← hM] at hrp
      rw [hlast] at hrp
      have hdp := deletePage_ok rid ((M.take ps).filter flt) tbl none trivial
      set k := rid ((M.take ps).getLast hevne) with hk
      set tbl1 := tbl.filter
        (fun j => !(idIn (((M.take ps).filter flt).map rid) (rid j))) with htbl1
      have hcands : pageCand rid keyOk (some k) tbl1 = M.drop ps := by
        rw [htbl1, hk]
        exact pageCand_after_delete hs hgt
          (fun x hx => List.mem_of_mem_filter hx) hevne
      have hs1 : SortedBy rid tbl1 := hs.filter _
      have hf1 : (pageCand rid keyOk (some k) tbl1).length < fuel := by
        rw [hcands, List.length_drop]
        omega
      have hrec := ih tbl1 (some k) hs1 hf1
      rw [hcands] at hrec
      rw [hk] at hrec
      have hMf : M.filter flt = (M.take ps).filter flt ++ (M.drop ps).filter flt := by
        conv_lhs => rw [← List.take_append_drop ps M]
        rw [List.filter_append]
      simp only [sweepRun, hrp, hdp, schedMinus, Option.map_some', Bool.false_eq_true,
        if_false]
      rw [hrec]
      simp only [SweepOut.mk.injEq]
      refine ⟨?_, ?_, trivial, ?_⟩
      · rw [htbl1, List.filter_filter]
        rw [hMf]
        apply List.filter_congr
        intro j _
        simp only [List.map_append, idIn_append, Bool.not_or]
        rw [Bool.and_comm]
      · rw [hMf, List.length_append]
      · rw [hMf, List.map_append]

/-! ## The sweep aborted by a failing delete -/

theorem sweepRun_fail {α : Type} (ps : Nat) (rid : α → String) (keyOk flt : α → Bool)
    (hps : 1 ≤ ps) :
    ∀ (fuel : Nat) (tbl : List α) (esk : Option String) (m : Nat),
      SortedBy rid tbl →
      (pageCand rid keyOk esk tbl).length < fuel →
      m < ((pageCand rid keyOk esk tbl).filter flt).length →
      sweepRun ps rid keyOk flt fuel tbl esk (some m) =
        ⟨tbl.filter (fun i =>
            !(idIn ((((pageCand rid keyOk esk tbl).filter flt).take m).map rid) (rid i))),
          m, true,
          (((pageCand rid keyOk esk tbl).filter flt).take m).map rid⟩ := by
  intro fuel
  induction fuel with
  | zero =>
    intro tbl esk m _ hf _
    exact absurd hf (Nat.not_lt_zero _)
  | succ fuel ih =>
    intro tbl esk m hs hf hm
    by_cases hle : (pageCand rid keyOk esk tbl).length ≤ ps
    · have hrp := runPage_none_of_le flt hle
      have hmle : m < ((pageCand rid keyOk esk tbl).filter flt).length := hm
      have hdp := deletePage_fail rid ((pageCand rid keyOk esk tbl).filter flt)
        tbl m hmle
      simp only [sweepRun, hrp, hdp]
      simp
    · have hgt : ps < (pageCand rid keyOk esk tbl).length := Nat.not_le.mp hle
      set M := pageCand rid keyOk esk tbl with hM
      have hevlen : (M.take ps).length = ps := by
        rw [List.length_take]
        omega
      have hevne : M.take ps ≠ [] := by
        intro h0
        rw [h0] at hevlen
        simp at hevlen
        omega
      have hlast : (M.take ps).getLast? = some ((M.take ps).getLast hevne) :=
        List.getLast?_eq_getLast _ hevne
      have hrp := runPage_none_of_gt flt hgt
      rw [← hM] at hrp
      rw [hlast] at hrp
      have hMf : M.filter flt = (M.take ps).filter flt ++ (M.drop ps).filter flt := by
        conv_lhs => rw [← List.take_append_drop ps M]
        rw [List.filter_append]
      by_cases hm1 : m < ((M.take ps).filter flt).length
      · have hdp := deletePage_fail rid ((M.take ps).filter flt) tbl m hm1
        simp only [sweepRun, hrp, hdp, Option.map_some', Bool.false_eq_true, if_false]
        rw [hMf, List.take_append_of_le_length (Nat.le_of_lt hm1)]
        simp
      · have hm2 : ((M.take ps).filter flt).length ≤ m := Nat.not_lt.mp hm1
        have hdp := deletePage_ok rid ((M.take ps).filter flt) tbl (some m) hm2
        set k := rid ((M.take ps).getLast hevne) with hk
        set tbl1 := tbl.filter
          (fun j => !(idIn (((M.take ps).filter flt).map rid) (rid j))) with htbl1
        have hcands : pageCand rid keyOk (some k) tbl1 = M.drop ps := by
          rw [htbl1, hk]
          exact pageCand_after_delete hs hgt
            (fun x hx => List.mem_of_mem_filter hx) hevne
        have hs1 : SortedBy rid tbl1 := hs.filter _
        have hf1 : (pageCand rid keyOk (some k) tbl1).length < fuel := by
          rw [hcands, List.length_drop]
          omega
        have hm3 : m - ((M.take ps).filter flt).length
            < ((pageCand rid keyOk (some k) tbl1).filter flt).length := by
          rw [hcands]
          rw [hMf, List.length_append] at hm
          omega
        have hrec := ih tbl1 (some k) (m - ((M.take ps).filter flt).length) hs1 hf1 hm3
        rw [hcands] at hrec
        rw [hk] at hrec
        have htake : (M.filter flt).take m =
            (M.take ps).filter flt ++
              ((M.drop ps).filter flt).take (m - ((M.take ps).filter flt).length) := by
          rw [hMf, List.take_append_eq_append_take,
            List.take_of_length_le hm2]
        simp only [sweepRun, hrp, hdp, schedMinus, Option.map_some', Bool.false_eq_true,
          if_false]
        rw [hrec]
        simp only [SweepOut.mk.injEq]
        refine ⟨?_, by omega, trivial, ?_⟩
        · rw [htbl1, List.filter_filter, htake]
          apply List.filter_congr
          intro j _
          simp only [List.map_append, idIn_append, Bool.not_or]
          rw [Bool.and_comm]
        · rw [htake, List.map_append]

/-! ## From id-level bookkeeping to record-level statements -/

theorem pageCand_none {α : Type} (rid : α → String) (keyOk : α → Bool)
    (tbl : List α) : pageCand rid keyOk none tbl = tbl.filter keyOk := by
  unfold pageCand
  apply List.filter_congr
  intro i _
  simp [beyondKey]

theorem filter_not_idIn {α : Type} {rid : α → String} {tbl : List α}
    (hs : SortedBy rid tbl) (sel : α → Bool) :
    tbl.filter (fun i => !(idIn ((tbl.filter sel).map rid) (rid i))) =
      tbl.filter (fun i => !(sel i)) := by
  apply List.filter_congr
  intro i hi
  congr 1
  by_cases h : sel i = true
  · have h1 : i ∈ tbl.filter sel := List.mem_filter.mpr ⟨hi, h⟩
    have h2 : rid i ∈ (tbl.filter sel).map rid := List.mem_map_of_mem rid h1
    rw [h, idIn_eq_true_iff.mpr h2]
  · have hf : sel i = false := by
      cases h0 : sel i with
      | true => exact absurd h0 h
      | false => rfl
    rw [hf]
    cases h0 : idIn ((tbl.filter sel).map rid) (rid i) with
    | false => rfl
    | true =>
      rcases List.mem_map.mp (idIn_eq_true_iff.mp h0) with ⟨j, hj, hji⟩
      have hjt : j ∈ tbl := List.mem_of_mem_filter hj
      have hij : j = i := sorted_rid_inj hs j hjt i hi hji
      rw [hij] at hj
      have := (List.mem_filter.mp hj).2
      rw [hf] at this
      cases this

/-- The whole sweep as `delete_all_user_activities`/`delete_all_user_memories`
start it (no continuation key, fuel past the table length), when no delete
fails: every record matched by `sel` (the conjunction of key condition and
filter) is deleted by id, and nothing else changes. -/
theorem sweep_top_ok {α : Type} (ps : Nat) (rid : α → String)
    (keyOk flt sel : α → Bool) (hps : 1 ≤ ps) (tbl : List α)
    (hs : SortedBy rid tbl) (hsel : ∀ i, (keyOk i && flt i) = sel i) :
    sweepRun ps rid keyOk flt (tbl.length + 1) tbl none none =
      ⟨tbl.filter (fun i => !(sel i)), (tbl.filter sel).length, false,
        (tbl.filter sel).map rid⟩ := by
  have hf : (pageCand rid keyOk none tbl).length < tbl.length + 1 := by
    have := List.length_filter_le (fun i => beyondKey none (rid i) && keyOk i) tbl
    unfold pageCand
    omega
  rw [sweepRun_ok ps rid keyOk flt hps _ tbl none hs hf]
  have h1 : (pageCand rid keyOk none tbl).filter flt = tbl.filter sel := by
    rw [pageCand_none, List.filter_filter]
    apply List.filter_congr
    intro i _
    rw [Bool.and_comm]
    exact hsel i
  rw [h1, filter_not_idIn hs sel]

/-- The whole sweep when the schedule makes the m-th delete raise before the
matched records are exhausted: exactly the first m matched records are gone
and the sweep reports failure. -/
theorem sweep_top_fail {α : Type} (ps : Nat) (rid : α → String)
    (keyOk flt sel : α → Bool) (hps : 1 ≤ ps) (tbl : List α)
    (hs : SortedBy rid tbl) (hsel : ∀ i, (keyOk i && flt i) = sel i)
    (m : Nat) (hm : m < (tbl.filter sel).length) :
    sweepRun ps rid keyOk flt (tbl.length + 1) tbl none (some m) =
      ⟨tbl.filter (fun i => !(idIn (((tbl.filter sel).take m).map rid) (rid i))),
        m, true, ((tbl.filter sel).take m).map rid⟩ := by
  have hf : (pageCand rid keyOk none tbl).length < tbl.length + 1 := by
    have := List.length_filter_le (fun i => beyondKey none (rid i) && keyOk i) tbl
    unfold pageCand
    omega
  have h1 : (pageCand rid keyOk none tbl).filter flt = tbl.filter sel := by
    rw [pageCand_none, List.filter_filter]
    apply List.filter_congr
    intro i _
    rw [Bool.and_comm]
    exact hsel i
  have hm2 : m < ((pageCand rid keyOk none tbl).filter flt).length := by
    rw [h1]
    exact hm
  rw [sweepRun_fail ps rid keyOk flt hps _ tbl none m hs hf hm2, h1]

/-- After a sweep aborted at the m-th delete, the records still matching are
exactly the matched records after the first m, in order. -/
theorem sweep_partial_remaining {α : Type} {rid : α → String} {tbl : List α}
    (hs : SortedBy rid tbl) (sel : α → Bool) (m : Nat) :
    (tbl.filter (fun i =>
        !(idIn (((tbl.filter sel).take m).map rid) (rid i)))).filter sel =
      (tbl.filter sel).drop m := by
  rw [List.filter_filter]
  have h1 : tbl.filter
      (fun i => sel i && !(idIn (((tbl.filter sel).take m).map rid) (rid i)))
      = (tbl.filter sel).filter
          (fun i => !(idIn (((tbl.filter sel).take m).map rid) (rid i))) := by
    rw [List.filter_filter]
    apply List.filter_congr
    intro i _
    rw [Bool.and_comm]
  rw [h1]
  set ids := ((tbl.filter sel).take m).map rid with hids
  have hsm : SortedBy rid (tbl.filter sel) := hs.filter sel
  have htd : (tbl.filter sel).take m ++ (tbl.filter sel).drop m = tbl.filter sel :=
    List.take_append_drop m (tbl.filter sel)
  have hcross : ∀ a ∈ (tbl.filter sel).take m, ∀ b ∈ (tbl.filter sel).drop m,
      strLt (rid a) (rid b) = true := by
    have h2 : ((tbl.filter sel).take m ++ (tbl.filter sel).drop m).Pairwise
        fun a b => strLt (rid a) (rid b) = true := by
      rw [htd]
      exact hsm
    exact (List.pairwise_append.mp h2).2.2
  conv_lhs => rw [← htd]
  rw [List.filter_append]
  have htk : ((tbl.filter sel).take m).filter (fun i => !(idIn ids (rid i))) = [] := by
    rw [List.filter_eq_nil_iff]
    intro a ha
    have : rid a ∈ ids := by
      rw [hids]
      exact List.mem_map_of_mem rid ha
    simp [idIn_eq_true_iff.mpr this]
  have hdr : ((tbl.filter sel).drop m).filter (fun i => !(idIn ids (rid i)))
      = (tbl.filter sel).drop m := by
    apply List.filter_eq_self.mpr
    intro a ha
    cases h0 : idIn ids (rid a) with
    | false => rfl
    | true =>
      rw [hids] at h0
      rcases List.mem_map.mp (idIn_eq_true_iff.mp h0) with ⟨j, hj, hji⟩
      have hjf : j ∈ tbl.filter sel := List.mem_of_mem_take hj
      have haf : a ∈ tbl.filter sel := List.mem_of_mem_drop ha
      have hja : j = a := sorted_rid_inj hsm j hjf a haf hji
      rw [hja] at hj
      have := hcross a hj a ha
      rw [strLt_irrefl] at this
      cases this
  rw [htk, hdr, List.nil_append]

/-! ## `delete_all_user_activities` / `delete_all_user_memories` resolved -/

theorem delete_all_user_activities_ok (env : StoreEnv Item) (u : String)
    (hps : 1 ≤ env.pageSize) (hs : SortedBy Item.id env.table)
    (hn : env.deleteFailAfter = none) (hsc : env.failScan = false) :
    delete_all_user_activities env u =
      (DeleteAllResult.ok
        ("Deleted " ++ toString (env.table.filter (ownerIs u)).length
          ++ (" activity log(s) for user " ++ u))
        (env.table.filter (ownerIs u)).length u,
       env.table.filter (fun i => !(ownerIs u i)),
       ((env.table.filter (ownerIs u)).map Item.id).map StoreCall.delItem) := by
  unfold delete_all_user_activities
  rw [hn]
  cases hg : env.gsiOk with
  | true =>
    simp only [if_true]
    rw [sweep_top_ok env.pageSize Item.id (ownerIs u) (fun _ => true) (ownerIs u)
      hps env.table hs (by intro i; simp)]
    simp [sweepEnvelope]
  | false =>
    simp only [hsc, if_false]
    rw [sweep_top_ok env.pageSize Item.id (fun _ => true) (ownerIs u) (ownerIs u)
      hps env.table hs (by intro i; simp)]
    simp [sweepEnvelope]

theorem delete_all_user_memories_ok (env : StoreEnv MemItem) (u : String)
    (hps : 1 ≤ env.pageSize) (hs : SortedBy MemItem.id env.table)
    (hn : env.deleteFailAfter = none) (hsc : env.failScan = false) :
    delete_all_user_memories env u =
      (DeleteAllResult.ok
        ("Deleted " ++ toString (env.table.filter (memOwnerIs u)).length
          ++ (" memory entry(s) for user " ++ u))
        (env.table.filter (memOwnerIs u)).length u,
       env.table.filter (fun i => !(memOwnerIs u i)),
       ((env.table.filter (memOwnerIs u)).map MemItem.id).map StoreCall.delItem) := by
  unfold delete_all_user_memories
  rw [hn]
  cases hg : env.gsiOk with
  | true =>
    simp only [if_true]
    rw [sweep_top_ok env.pageSize MemItem.id (memOwnerIs u) (fun _ => true)
      (memOwnerIs u) hps env.table hs (by intro i; simp)]
    simp [sweepEnvelope]
  | false =>
    simp only [hsc, if_false]
    rw [sweep_top_ok env.pageSize MemItem.id (fun _ => true) (memOwnerIs u)
      (memOwnerIs u) hps env.table hs (by intro i; simp)]
    simp [sweepEnvelope]

theorem delete_all_user_activities_fail (env : StoreEnv Item) (u : String) (m : Nat)
    (hps : 1 ≤ env.pageSize) (hs : SortedBy Item.id env.table)
    (hn : env.deleteFailAfter = some m) (hsc : env.failScan = false)
    (hm : m < (env.table.filter (ownerIs u)).length) :
    delete_all_user_activities env u =
      (DeleteAllResult.err "delete_item failed",
       env.table.filter (fun i =>
         !(idIn (((env.table.filter (ownerIs u)).take m).map Item.id) (Item.id i))),
       (((env.table.filter (ownerIs u)).take m).map Item.id).map StoreCall.delItem) := by
  unfold delete_all_user_activities
  rw [hn]
  cases hg : env.gsiOk with
  | true =>
    simp only [if_true]
    rw [sweep_top_fail env.pageSize Item.id (ownerIs u) (fun _ => true) (ownerIs u)
      hps env.table hs (by intro i; simp) m hm]
    simp [sweepEnvelope]
  | false =>
    simp only [hsc, if_false]
    rw [sweep_top_fail env.pageSize Item.id (fun _ => true) (ownerIs u) (ownerIs u)
      hps env.table hs (by intro i; simp) m hm]
    simp [sweepEnvelope]

/-! ## `get_activity_logs` resolved -/

theorem filter_const_true {α : Type} (tbl : List α) :
    tbl.filter (fun _ => true) = tbl :=
  List.filter_eq_self.mpr fun _ _ => rfl

theorem evalCond_foldl_and (i : Item) :
    ∀ (cs : List Cond) (c : Cond),
      evalCond (cs.foldl Cond.and c) i = (evalCond c i && cs.all (fun d => evalCond d i)) := by
  intro cs
  induction cs with
  | nil => intro c; simp
  | cons d cs ih =>
    intro c
    simp only [List.foldl_cons, List.all_cons]
    rw [ih (Cond.and c d)]
    simp only [evalCond]
    rw [Bool.and_assoc]

theorem evalOptCond_combineConds (cs : List Cond) (i : Item) :
    evalOptCond (combineConds cs) i = cs.all (fun c => evalCond c i) := by
  cases cs with
  | nil => rfl
  | cons c cs =>
    simp only [combineConds, evalOptCond]
    rw [evalCond_foldl_and i cs c]
    simp

/-- The filter a condition list denotes on an item. -/
def condsHold (aty sd ed : Option String) (i : Item) : Bool :=
  (condList aty sd ed).all fun c => evalCond c i

theorem runPage_some_items {α : Type} (ps l : Nat) (rid : α → String)
    (keyOk flt : α → Bool) (tbl : List α) :
    (runPage ps (some l) rid keyOk flt none tbl).items =
      ((tbl.filter keyOk).take (min l ps)).filter flt := by
  have h0 : (runPage ps (some l) rid keyOk flt none tbl).items =
      ((tbl.filter fun i => beyondKey none (rid i) && keyOk i).take (min l ps)).filter
        flt := rfl
  rw [h0]
  have h1 : (tbl.filter fun i => beyondKey none (rid i) && keyOk i) =
      tbl.filter keyOk :=
    List.filter_congr fun i _ => by simp [beyondKey]
  rw [h1]

theorem get_activity_logs_indexed (env : StoreEnv Item) (u : String)
    (aty sd ed : Option String) (limit : Nat) (hg : env.gsiOk = true) :
    get_activity_logs env (some u) aty limit sd ed =
      (GetLogsResult.ok
        (((env.table.filter (ownerIs u)).take (min limit env.pageSize)).filter
          (condsHold aty sd ed)).length
        ((((env.table.filter (ownerIs u)).take (min limit env.pageSize)).filter
          (condsHold aty sd ed)).map postItem),
        [StoreCall.pageRead (getLogsIndexedReq u aty sd ed limit)]) := by
  have hitems : (runPageReq env (getLogsIndexedReq u aty sd ed limit)).items =
      ((env.table.filter (ownerIs u)).take (min limit env.pageSize)).filter
        (condsHold aty sd ed) := by
    unfold runPageReq getLogsIndexedReq
    rw [runPage_some_items]
    have hkey : (reqKeyOk
        { useIndex := true, keyUser := some u
          filter := combineConds (condList aty sd ed)
          limit := some limit, consistentRead := false, esk := none }) =
        ownerIs u := by
      funext i
      simp [reqKeyOk, ownerIs]
    rw [hkey]
    apply List.filter_congr
    intro i _
    exact evalOptCond_combineConds _ i
  unfold get_activity_logs
  rw [hg]
  simp only [if_true]
  rw [hitems]

theorem get_activity_logs_fallback (env : StoreEnv Item) (u : String)
    (aty sd ed : Option String) (limit : Nat) (hg : env.gsiOk = false)
    (hsc : env.failScan = false) :
    get_activity_logs env (some u) aty limit sd ed =
      (GetLogsResult.ok
        ((env.table.take (min limit env.pageSize)).filter
          (fun i => ownerIs u i && condsHold aty sd ed i)).length
        (((env.table.take (min limit env.pageSize)).filter
          (fun i => ownerIs u i && condsHold aty sd ed i)).map postItem),
        [StoreCall.pageRead (getLogsFallbackReq u aty sd ed limit)]) := by
  have hitems : (runPageReq env (getLogsFallbackReq u aty sd ed limit)).items =
      (env.table.take (min limit env.pageSize)).filter
        (fun i => ownerIs u i && condsHold aty sd ed i) := by
    unfold runPageReq getLogsFallbackReq
    rw [runPage_some_items]
    have hkey : (reqKeyOk
        { useIndex := false, keyUser := none
          filter := combineConds (Cond.userEq u :: condList aty sd ed)
          limit := some limit, consistentRead := true, esk := none }) =
        fun (_ : Item) => true := by
      funext i
      simp [reqKeyOk]
    rw [hkey, filter_const_true]
    apply List.filter_congr
    intro i _
    rw [evalOptCond_combineConds]
    simp only [List.all_cons]
    rfl
  unfold get_activity_logs
  rw [hg, hsc]
  simp only [Bool.false_eq_true, if_false]
  rw [hitems]

theorem get_activity_logs_scan (env : StoreEnv Item) (aty sd ed : Option String)
    (limit : Nat) (hsc : env.failScan = false) :
    get_activity_logs env none aty limit sd ed =
      (GetLogsResult.ok
        ((env.table.take (min limit env.pageSize)).filter (condsHold aty sd ed)).length
        (((env.table.take (min limit env.pageSize)).filter
          (condsHold aty sd ed)).map postItem),
        [StoreCall.pageRead (getLogsScanReq aty sd ed limit)]) := by
  have hitems : (runPageReq env (getLogsScanReq aty sd ed limit)).items =
      (env.table.take (min limit env.pageSize)).filter (condsHold aty sd ed) := by
    unfold runPageReq getLogsScanReq
    rw [runPage_some_items]
    have hkey : (reqKeyOk
        { useIndex := false, keyUser := none
          filter := combineConds (condList aty sd ed)
          limit := some limit, consistentRead := true, esk := none }) =
        fun (_ : Item) => true := by
      funext i
      simp [reqKeyOk]
    rw [hkey, filter_const_true]
    apply List.filter_congr
    intro i _
    exact evalOptCond_combineConds _ i
  unfold get_activity_logs
  rw [hsc]
  simp only [Bool.false_eq_true, if_false]
  rw [hitems]

/-! ## Concrete store fixtures for counterexamples and witnesses -/

/-- A sample activity record of owner A. -/
def itemA1 : Item :=
  ⟨"a1", "2024-01-01T08:00:00Z", "food", "eggs", "c", "c", none, some "A"⟩

/-- A second activity record of owner A. -/
def itemA2 : Item :=
  ⟨"a2", "2024-01-02T08:00:00Z", "exercise", "run", "c", "c", none, some "A"⟩

/-- An activity record of owner B. -/
def itemB1 : Item :=
  ⟨"b1", "2024-01-03T08:00:00Z", "sleep", "slept", "c", "c", none, some "B"⟩

/-- A memory entry of owner A. -/
def memM1 : MemItem := ⟨"m1", "food_drink", "Yogurt", some "A", none, "c", "c", none⟩

/-- A second memory entry of owner A. -/
def memM2 : MemItem := ⟨"m2", "sleep", "Nap", some "A", none, "c", "c", none⟩

/-- A healthy store with two owner-A records and one of owner B, paging one
item at a time. -/
def envW : StoreEnv Item := ⟨[itemA1, itemA2, itemB1], true, 1, false, false, none⟩

/-- A healthy memory store with two owner-A entries, paging one at a time. -/
def menvW : StoreEnv MemItem := ⟨[memM1, memM2], true, 1, false, false, none⟩

/-! ## The claims -/

theorem filter_owner_of_not_owner {α : Type} (l : List α) (p : α → Bool) :
    (l.filter (fun i => !(p i))).filter p = [] := by
  rw [List.filter_filter, List.filter_eq_nil_iff]
  intro a _
  simp [Bool.and_comm]

/-- Claim C2: for every owner with N matching records (also when N exceeds one
store page — the fixtures page one item at a time), `delete_all_user_activities`
and `delete_all_user_memories` follow the continuation token until exhausted,
delete every matching record individually by id (the trace is one `delete_item`
per matching record), return `deleted_count = N`, and leave zero records with
that owner (absent concurrent writers). -/
theorem c2_deleteAll_exhaustive (env : StoreEnv Item) (menv : StoreEnv MemItem)
    (u v : String)
    (hps : 1 ≤ env.pageSize) (hs : SortedBy Item.id env.table)
    (hn : env.deleteFailAfter = none) (hsc : env.failScan = false)
    (hps2 : 1 ≤ menv.pageSize) (hs2 : SortedBy MemItem.id menv.table)
    (hn2 : menv.deleteFailAfter = none) (hsc2 : menv.failScan = false) :
    (delete_all_user_activities env u =
      (DeleteAllResult.ok
        ("Deleted " ++ toString (env.table.filter (ownerIs u)).length
          ++ (" activity log(s) for user " ++ u))
        (env.table.filter (ownerIs u)).length u,
       env.table.filter (fun i => !(ownerIs u i)),
       ((env.table.filter (ownerIs u)).map Item.id).map StoreCall.delItem)) ∧
    ((delete_all_user_activities env u).2.1.filter (ownerIs u) = []) ∧
    (delete_all_user_memories menv v =
      (DeleteAllResult.ok
        ("Deleted " ++ toString (menv.table.filter (memOwnerIs v)).length
          ++ (" memory entry(s) for user " ++ v))
        (menv.table.filter (memOwnerIs v)).length v,
       menv.table.filter (fun i => !(memOwnerIs v i)),
       ((menv.table.filter (memOwnerIs v)).map MemItem.id).map StoreCall.delItem)) ∧
    ((delete_all_user_memories menv v).2.1.filter (memOwnerIs v) = []) := by
  have h1 := delete_all_user_activities_ok env u hps hs hn hsc
  have h2 := delete_all_user_memories_ok menv v hps2 hs2 hn2 hsc2
  refine ⟨h1, ?_, h2, ?_⟩
  · rw [h1]
    exact filter_owner_of_not_owner _ _
  · rw [h2]
    exact filter_owner_of_not_owner _ _

theorem c2_witness :
    (delete_all_user_activities envW "A").1 =
      DeleteAllResult.ok
        ("Deleted " ++ toString (envW.table.filter (ownerIs "A")).length
          ++ (" activity log(s) for user " ++ "A"))
        (envW.table.filter (ownerIs "A")).length "A" ∧
    (delete_all_user_memories menvW "A").1 =
      DeleteAllResult.ok
        ("Deleted " ++ toString (menvW.table.filter (memOwnerIs "A")).length
          ++ (" memory entry(s) for user " ++ "A"))
        (menvW.table.filter (memOwnerIs "A")).length "A" := by
  have h := c2_deleteAll_exhaustive envW menvW "A" "A"
    (by decide) (by decide) rfl rfl (by decide) (by decide) rfl rfl
  exact ⟨by rw [h.1], by rw [h.2.2.1]⟩

/-- Claim C3: deleting all of an owner's activities twice in a row with no
intervening writes is safe and idempotent — the second call observes zero
matching records, deletes nothing and returns `deleted_count = 0`, and any
`get_activity_logs` for that owner after the first call returns an empty
result set (whatever type/date filters and limit it uses, on either the
indexed or the fallback path). -/
theorem c3_deleteAll_idempotent (env : StoreEnv Item) (u : String)
    (hps : 1 ≤ env.pageSize) (hs : SortedBy Item.id env.table)
    (hn : env.deleteFailAfter = none) (hsc : env.failScan = false) :
    (delete_all_user_activities
        {env with table := (delete_all_user_activities env u).2.1} u =
      (DeleteAllResult.ok
        ("Deleted " ++ toString (0 : Nat) ++ (" activity log(s) for user " ++ u))
        0 u,
       (delete_all_user_activities env u).2.1, [])) ∧
    (∀ (aty sd ed : Option String) (limit : Nat),
      (get_activity_logs {env with table := (delete_all_user_activities env u).2.1}
          (some u) aty limit sd ed).1 = GetLogsResult.ok 0 []) := by
  have h1 := delete_all_user_activities_ok env u hps hs hn hsc
  have ht1 : (delete_all_user_activities env u).2.1 =
      env.table.filter (fun i => !(ownerIs u i)) := by rw [h1]
  have hzero : (delete_all_user_activities env u).2.1.filter (ownerIs u) = [] := by
    rw [ht1]
    exact filter_owner_of_not_owner _ _
  have hnotowner : ∀ i ∈ (delete_all_user_activities env u).2.1, ownerIs u i = false := by
    intro i hi
    rw [ht1] at hi
    have := (List.mem_filter.mp hi).2
    cases h0 : ownerIs u i with
    | false => rfl
    | true => rw [h0] at this; cases this
  constructor
  · have h2 := delete_all_user_activities_ok
      {env with table := (delete_all_user_activities env u).2.1} u hps
      (by rw [ht1]; exact hs.filter _) hn hsc
    rw [h2]
    have hself : (delete_all_user_activities env u).2.1.filter
        (fun i => !(ownerIs u i)) = (delete_all_user_activities env u).2.1 := by
      apply List.filter_eq_self.mpr
      intro a ha
      rw [hnotowner a ha]
      rfl
    rw [hzero, hself]
    simp
  · intro aty sd ed limit
    cases hg : ({env with table := (delete_all_user_activities env u).2.1} :
        StoreEnv Item).gsiOk with
    | true =>
      rw [get_activity_logs_indexed
        {env with table := (delete_all_user_activities env u).2.1, gsiOk := true}
        u aty sd ed limit rfl]
      simp only [hzero, List.take_nil, List.filter_nil, List.length_nil, List.map_nil]
    | false =>
      rw [get_activity_logs_fallback
        {env with table := (delete_all_user_activities env u).2.1, gsiOk := false}
        u aty sd ed limit rfl hsc]
      have hempty : ((delete_all_user_activities env u).2.1.take
          (min limit env.pageSize)).filter
          (fun i => ownerIs u i && condsHold aty sd ed i) = [] := by
        rw [List.filter_eq_nil_iff]
        intro a ha
        have ham : a ∈ (delete_all_user_activities env u).2.1 :=
          List.mem_of_mem_take ha
        simp [hnotowner a ham]
      rw [hempty]
      simp

theorem c3_witness :
    (delete_all_user_activities
        {envW with table := (delete_all_user_activities envW "A").2.1} "A").1 =
      DeleteAllResult.ok
        ("Deleted " ++ toString (0 : Nat) ++ (" activity log(s) for user " ++ "A"))
        0 "A" ∧
    (get_activity_logs
        {envW with table := (delete_all_user_activities envW "A").2.1}
        (some "A") none 50 none none).1 = GetLogsResult.ok 0 [] := by
  have h := c3_deleteAll_idempotent envW "A" (by decide) (by decide) rfl rfl
  exact ⟨by rw [h.1], h.2 none none none 50⟩

theorem find_id_of_mem {tbl : List Item} (hs : SortedBy Item.id tbl) {it : Item}
    (hmem : it ∈ tbl) : tbl.find? (fun i => i.id == it.id) = some it := by
  induction tbl with
  | nil => cases hmem
  | cons x rest ih =>
    rcases List.mem_cons.mp hmem with hx | hr
    · rw [List.find?_cons_of_pos]
      · rw [hx]
      · rw [hx]
        simp
    · have hxne : (x.id == it.id) = false := by
        cases h0 : x.id == it.id with
        | false => rfl
        | true =>
          have heq : x.id = it.id := by simpa using h0
          have : x = it := sorted_rid_inj hs x (List.mem_cons_self x rest) it hmem heq
          rw [this] at hs
          have := (List.pairwise_cons.mp hs).1 it hr
          rw [strLt_irrefl] at this
          cases this
      rw [List.find?_cons_of_neg]
      · exact ih (List.pairwise_cons.mp hs).2 hr
      · simp [hxne]

/-- Claim C5: `delete_activity_log` deletes unconditionally by primary key.
When the record exists it returns the success envelope carrying the deleted
record's prior state (and the record is removed); when it does not, the
result is the distinct reported not-found envelope ("... not found" message),
which is not raised as a failure and is distinguishable from the store-error
envelope (it is never `DeleteOneResult.err`). -/
theorem c5_deleteOne (env : StoreEnv Item) (aid : String)
    (hn : env.deleteFailAfter = none) (hs : SortedBy Item.id env.table) :
    (∀ it, it ∈ env.table → it.id = aid →
      delete_activity_log env aid =
        (DeleteOneResult.ok ("Activity log " ++ aid ++ " deleted successfully") it,
         delById Item.id env.table aid, [StoreCall.delItem aid])) ∧
    ((∀ it, it ∈ env.table → it.id ≠ aid) →
      delete_activity_log env aid =
        (DeleteOneResult.notFound ("Activity log " ++ aid ++ " not found"),
         env.table, [StoreCall.delItem aid]) ∧
      ∀ e, (delete_activity_log env aid).1 ≠ DeleteOneResult.err e) := by
  have hnf : ¬ env.deleteFailAfter = some 0 := by rw [hn]; simp
  constructor
  · intro it hmem hid
    have hfind : env.table.find? (fun i => i.id == aid) = some it := by
      rw [← hid]
      exact find_id_of_mem hs hmem
    unfold delete_activity_log
    rw [if_neg hnf, hfind]
  · intro hnone
    have hfind : env.table.find? (fun i => i.id == aid) = none := by
      rw [List.find?_eq_none]
      intro x hx
      simp [hnone x hx]
    constructor
    · unfold delete_activity_log
      rw [if_neg hnf, hfind]
    · intro e
      unfold delete_activity_log
      rw [if_neg hnf, hfind]
      simp

theorem c5_witness :
    delete_activity_log envW "a1" =
      (DeleteOneResult.ok ("Activity log " ++ "a1" ++ " deleted successfully") itemA1,
       delById Item.id envW.table "a1", [StoreCall.delItem "a1"]) ∧
    delete_activity_log envW "zz" =
      (DeleteOneResult.notFound ("Activity log " ++ "zz" ++ " not found"),
       envW.table, [StoreCall.delItem "zz"]) := by
  have h := c5_deleteOne envW "a1" rfl (by decide)
  have h2 := c5_deleteOne envW "zz" rfl (by decide)
  refine ⟨h.1 itemA1 (by simp [envW]) rfl, (h2.2 ?_).1⟩
  intro it hmem
  fin_cases hmem <;> simp [itemA1, itemA2, itemB1]

/-- Claim C10: the create operations disagree on empty-string owners. For
`user_name = ""`, `create_food_or_drink_activity_log` stores a `user_name`
attribute (value `""`) on the created item unconditionally, while
`create_sleep_activity_log` (guarded by `if user_name:`) omits the attribute
entirely, so the empty-owner record's ownership field exists for food/drink
entries but not for sleep entries. -/
theorem c10_empty_owner (env : StoreEnv Item) (aty : FoodAndDrinkActivityTypes)
    (raw : String) (pdF : ProcessedDataDrinkAndFood) (pdS : ProcessedDataSleep)
    (ts : Option String) (iid now aty2 : String) (hput : env.failPut = false) :
    (∃ it, (create_food_or_drink_activity_log env aty raw pdF "" ts iid now).1 =
        CreateResult.ok "Activity log created successfully" it ∧
      it.user_name = some "" ∧
      (create_food_or_drink_activity_log env aty raw pdF "" ts iid now).2.1 =
        putSorted Item.id env.table it) ∧
    (∃ it, (create_sleep_activity_log env raw pdS "" ts aty2 iid now).1 =
        CreateResult.ok "Sleep log created successfully" it ∧
      it.user_name = none ∧
      (create_sleep_activity_log env raw pdS "" ts aty2 iid now).2.1 =
        putSorted Item.id env.table it) := by
  constructor
  · refine ⟨⟨iid, pyOr ts now, aty.value, raw, now, now,
      some (jsonDumps pdF.model_dump), some ""⟩, ?_, rfl, ?_⟩
    · unfold create_food_or_drink_activity_log
      rw [hput]
      simp
    · unfold create_food_or_drink_activity_log
      rw [hput]
      simp
  · refine ⟨⟨iid, pyOr ts now, aty2, raw, now, now,
      some (jsonDumps pdS.model_dump), none⟩, ?_, rfl, ?_⟩
    · unfold create_sleep_activity_log
      rw [hput]
      simp
    · unfold create_sleep_activity_log
      rw [hput]
      simp

/-- A sample nutritional payload within all declared bounds. -/
def pdFoodW : ProcessedDataDrinkAndFood :=
  ⟨"one cup of coffee", some "1 cup", ⟨2, 0, 0, 0, none, none, none⟩,
    [("potassium", "49mg")], 0⟩

/-- A sample sleep payload. -/
def pdSleepW : ProcessedDataSleep := ⟨8, some "good", none⟩

theorem c10_witness :
    (∃ it, (create_food_or_drink_activity_log envW FoodAndDrinkActivityTypes.food
        "coffee" pdFoodW "" none "x1" "t").1 =
        CreateResult.ok "Activity log created successfully" it ∧
      it.user_name = some "" ∧
      (create_food_or_drink_activity_log envW FoodAndDrinkActivityTypes.food
        "coffee" pdFoodW "" none "x1" "t").2.1 =
        putSorted Item.id envW.table it) ∧
    (∃ it, (create_sleep_activity_log envW "coffee" pdSleepW "" none
        "sleep" "x1" "t").1 =
        CreateResult.ok "Sleep log created successfully" it ∧
      it.user_name = none ∧
      (create_sleep_activity_log envW "coffee" pdSleepW "" none
        "sleep" "x1" "t").2.1 = putSorted Item.id envW.table it) :=
  c10_empty_owner envW FoodAndDrinkActivityTypes.food "coffee" pdFoodW pdSleepW
    none "x1" "t" "sleep" rfl

/-- Claim C8: a create call whose payload violates a declared bound —
`glycemic_load` outside [0, 50], `duration_min < 1`, or `dosage < 0` — is
rejected at the validation boundary before any store call is attempted: the
call returns the rejection, the table is unchanged and the store-call trace
is empty. -/
theorem c8_bounds_validation (env : StoreEnv Item)
    (aty : FoodAndDrinkActivityTypes) (raw u : String) (ts : Option String)
    (aty2 iid now : String) (pdF : ProcessedDataDrinkAndFood)
    (pdE : ProcessedDataExercise) (pdSup : ProcessedDataSupplement) :
    (¬ (0 ≤ pdF.glycemic_load ∧ pdF.glycemic_load ≤ 50) →
      call_create_food_or_drink_activity_log env aty raw pdF u ts iid now =
        (Validated.rejected, env.table, [])) ∧
    (pdE.duration_min < 1 →
      call_create_exercise_activity_log env raw pdE u ts aty2 iid now =
        (Validated.rejected, env.table, [])) ∧
    (pdSup.dosage < 0 →
      call_create_supplement_activity_log env raw pdSup u ts aty2 iid now =
        (Validated.rejected, env.table, [])) := by
  refine ⟨?_, ?_, ?_⟩
  · intro hv
    have hval : pdF.valid = false := by
      unfold ProcessedDataDrinkAndFood.valid
      rcases not_and_or.mp hv with h | h <;> simp [h]
    unfold call_create_food_or_drink_activity_log
    rw [hval]
    simp
  · intro hv
    have hval : pdE.valid = false := by
      unfold ProcessedDataExercise.valid
      simp
      omega
    unfold call_create_exercise_activity_log
    rw [hval]
    simp
  · intro hv
    have hval : pdSup.valid = false := by
      unfold ProcessedDataSupplement.valid
      simp
      exact hv
    unfold call_create_supplement_activity_log
    rw [hval]
    simp

/-- A nutritional payload violating the glycemic-load upper bound. -/
def pdFoodBad : ProcessedDataDrinkAndFood :=
  ⟨"sugar bomb", none, ⟨900, 0, 200, 0, none, none, none⟩, [], 99⟩

/-- An exercise payload violating the duration lower bound. -/
def pdExerciseBad : ProcessedDataExercise := ⟨0, "running", none⟩

/-- A supplement payload violating the dosage lower bound. -/
def pdSupplementBad : ProcessedDataSupplement := ⟨"VitD", -1, "IU", none⟩

theorem c8_witness :
    call_create_food_or_drink_activity_log envW FoodAndDrinkActivityTypes.food
      "cake" pdFoodBad "A" none "x1" "t" = (Validated.rejected, envW.table, []) ∧
    call_create_exercise_activity_log envW "ran" pdExerciseBad "A" none
      "exercise" "x2" "t" = (Validated.rejected, envW.table, []) ∧
    call_create_supplement_activity_log envW "vitd" pdSupplementBad "A" none
      "supplement" "x3" "t" = (Validated.rejected, envW.table, []) := by
  have h := c8_bounds_validation envW FoodAndDrinkActivityTypes.food "cake" "A"
    none "exercise" "x1" "t" pdFoodBad pdExerciseBad pdSupplementBad
  refine ⟨h.1 (by decide), ?_, ?_⟩
  · have h2 := c8_bounds_validation envW FoodAndDrinkActivityTypes.food "ran" "A"
      none "exercise" "x2" "t" pdFoodBad pdExerciseBad pdSupplementBad
    exact h2.2.1 (by decide)
  · have h3 := c8_bounds_validation envW FoodAndDrinkActivityTypes.food "vitd" "A"
      none "supplement" "x3" "t" pdFoodBad pdExerciseBad pdSupplementBad
    exact h3.2.2 (by decide)

/-- An empty healthy store. -/
def envEmpty : StoreEnv Item := ⟨[], true, 10, false, false, none⟩

/-- A stored record whose `processedData` string is not valid JSON. -/
def itemRawPD : Item :=
  ⟨"r1", "2024-01-01T00:00:00Z", "food", "r", "c", "c",
    some (DBStr.raw "not json"), some "A"⟩

/-- A healthy store holding only `itemRawPD`. -/
def envRawPD : StoreEnv Item := ⟨[itemRawPD], true, 10, false, false, none⟩

/-- Claim C9: for every structured payload P, creating a food/drink record
with `processedData = P` (serialized at creation) and then listing it back
yields the deserialized payload equal to P's `model_dump` (plain equality,
the strongest form of deep equality, so field order is irrelevant); and a
stored `processedData` string that fails to parse is passed through as the
raw string while the list call still succeeds. -/
theorem c9_roundtrip (pd : ProcessedDataDrinkAndFood) (u raw : String)
    (aty : FoodAndDrinkActivityTypes) (ts : Option String) (iid now : String) :
    (∃ it, (create_food_or_drink_activity_log envEmpty aty raw pd u ts iid now).1 =
        CreateResult.ok "Activity log created successfully" it ∧
      (get_activity_logs
          {envEmpty with
            table := (create_food_or_drink_activity_log envEmpty aty raw pd u
              ts iid now).2.1}
          (some u) none 50 none none).1 = GetLogsResult.ok 1 [postItem it] ∧
      (postItem it).processedData = some (PDOut.obj pd.model_dump)) ∧
    ((get_activity_logs envRawPD (some "A") none 50 none none).1 =
        GetLogsResult.ok 1 [postItem itemRawPD] ∧
      (postItem itemRawPD).processedData = some (PDOut.str (DBStr.raw "not json"))) := by
  constructor
  · refine ⟨⟨iid, pyOr ts now, aty.value, raw, now, now,
      some (jsonDumps pd.model_dump), some u⟩, ?_, ?_, ?_⟩
    · unfold create_food_or_drink_activity_log
      simp [envEmpty]
    · have htbl : (create_food_or_drink_activity_log envEmpty aty raw pd u
          ts iid now).2.1 =
          [⟨iid, pyOr ts now, aty.value, raw, now, now,
            some (jsonDumps pd.model_dump), some u⟩] := by
        unfold create_food_or_drink_activity_log
        simp [envEmpty, putSorted]
      rw [get_activity_logs_indexed _ u none none none 50 rfl]
      rw [htbl]
      simp [envEmpty, ownerIs, condsHold, condList]
    · simp [postItem, parsePD, jsonLoads, jsonDumps]
  · constructor
    · rw [get_activity_logs_indexed envRawPD "A" none none none 50 rfl]
      simp [envRawPD, itemRawPD, ownerIs, condsHold, condList]
    · simp [postItem, parsePD, jsonLoads, itemRawPD]

/-- Claim C4: every accepted `get_activity_logs` call (its `limit` validated
into [1, 100], defaulting to 50) performs exactly one page read against the
store, with no `ExclusiveStartKey` (it never follows a continuation token),
that read's `Limit` is the call's `limit`, and the returned data is one page
of at most `limit` items with `count` equal to its length. -/
theorem c4_one_page (env : StoreEnv Item) (u aty sd ed : Option String)
    (limit : Nat) (r : GetLogsResult × List StoreCall)
    (hsc : env.failScan = false)
    (hacc : call_get_activity_logs env u aty limit sd ed = Validated.accepted r) :
    (1 ≤ limit ∧ limit ≤ 100) ∧
    (∃ req, r.2 = [StoreCall.pageRead req] ∧ req.esk = none ∧
      req.limit = some limit) ∧
    (∀ n data, r.1 = GetLogsResult.ok n data →
      n = data.length ∧ data.length ≤ limit) := by
  unfold call_get_activity_logs at hacc
  by_cases hb : 1 ≤ limit ∧ limit ≤ 100
  · rw [if_pos hb] at hacc
    have hr : r = get_activity_logs env u aty limit sd ed := by
      cases hacc
      rfl
    subst hr
    refine ⟨hb, ?_, ?_⟩
    · cases u with
      | some v =>
        cases hg : env.gsiOk with
        | true =>
          rw [get_activity_logs_indexed env v aty sd ed limit hg]
          exact ⟨getLogsIndexedReq v aty sd ed limit, rfl, rfl, rfl⟩
        | false =>
          rw [get_activity_logs_fallback env v aty sd ed limit hg hsc]
          exact ⟨getLogsFallbackReq v aty sd ed limit, rfl, rfl, rfl⟩
      | none =>
        rw [get_activity_logs_scan env aty sd ed limit hsc]
        exact ⟨getLogsScanReq aty sd ed limit, rfl, rfl, rfl⟩
    · intro n data hok
      have hlen : ∀ (l : List Item) (flt : Item → Bool),
          ((l.take (min limit env.pageSize)).filter flt).length ≤ limit := by
        intro l flt
        calc ((l.take (min limit env.pageSize)).filter flt).length
            ≤ (l.take (min limit env.pageSize)).length :=
              List.length_filter_le _ _
          _ ≤ min limit env.pageSize := List.length_take_le _ _
          _ ≤ limit := Nat.min_le_left _ _
      cases u with
      | some v =>
        cases hg : env.gsiOk with
        | true =>
          rw [get_activity_logs_indexed env v aty sd ed limit hg] at hok
          simp only [GetLogsResult.ok.injEq] at hok
          rcases hok with ⟨hn, hd⟩
          subst hd
          constructor
          · rw [← hn, List.length_map]
          · rw [List.length_map]
            exact hlen _ _
        | false =>
          rw [get_activity_logs_fallback env v aty sd ed limit hg hsc] at hok
          simp only [GetLogsResult.ok.injEq] at hok
          rcases hok with ⟨hn, hd⟩
          subst hd
          constructor
          · rw [← hn, List.length_map]
          · rw [List.length_map]
            exact hlen _ _
      | none =>
        rw [get_activity_logs_scan env aty sd ed limit hsc] at hok
        simp only [GetLogsResult.ok.injEq] at hok
        rcases hok with ⟨hn, hd⟩
        subst hd
        constructor
        · rw [← hn, List.length_map]
        · rw [List.length_map]
          exact hlen _ _
  · rw [if_neg hb] at hacc
    cases hacc

theorem c4_witness :
    (1 ≤ 50 ∧ 50 ≤ 100) ∧
    (∃ req, (get_activity_logs envW (some "A") none 50 none none).2 =
        [StoreCall.pageRead req] ∧ req.esk = none ∧ req.limit = some 50) ∧
    (∀ n data,
      (get_activity_logs envW (some "A") none 50 none none).1 =
        GetLogsResult.ok n data →
      n = data.length ∧ data.length ≤ 50) :=
  c4_one_page envW (some "A") none none none 50
    (get_activity_logs envW (some "A") none 50 none none) rfl rfl

/-- A record of owner B that the store scans first. -/
def itemB0 : Item := ⟨"a", "t", "food", "r", "c", "c", none, some "B"⟩

/-- A record of owner A that the store scans second. -/
def itemA0 : Item := ⟨"b", "t", "food", "r", "c", "c", none, some "A"⟩

/-- The two-record store with the GSI available. -/
def envCxT : StoreEnv Item := ⟨[itemB0, itemA0], true, 10, false, false, none⟩

/-- The same store with the GSI unavailable. -/
def envCxF : StoreEnv Item := ⟨[itemB0, itemA0], false, 10, false, false, none⟩

theorem c1_counterexample :
    (get_activity_logs envCxT (some "A") none 1 none none).1 =
      GetLogsResult.ok 1 [postItem itemA0] ∧
    (get_activity_logs envCxF (some "A") none 1 none none).1 =
      GetLogsResult.ok 0 [] :=
  ⟨rfl, rfl⟩

/-- Claim C1 (amended): for every `get_activity_logs` call with an owner whose
index lookup fails, the failure is caught locally and not surfaced — the call
answers through the fallback scan with a success envelope; the fallback
request applies the same logical filter set as the indexed path (the owner
equality of the key condition plus the optional type equality and inclusive
timestamp bounds) and requests strong read consistency (which the indexed
path does not); and it returns the same logical result set as the indexed
path would for identical underlying data, provided the single page is not
truncated (the table fits within both `limit` and the store's internal page
bound, the restriction the counterexample forces). -/
theorem c1_fallback_amended (env : StoreEnv Item) (u : String)
    (aty sd ed : Option String) (limit : Nat)
    (hg : env.gsiOk = false) (hsc : env.failScan = false)
    (hlim : env.table.length ≤ limit) (hpsz : env.table.length ≤ env.pageSize) :
    (∃ n data, get_activity_logs env (some u) aty limit sd ed =
      (GetLogsResult.ok n data,
        [StoreCall.pageRead (getLogsFallbackReq u aty sd ed limit)])) ∧
    ((getLogsFallbackReq u aty sd ed limit).consistentRead = true ∧
     (getLogsIndexedReq u aty sd ed limit).consistentRead = false ∧
     ∀ i : Item, evalOptCond (getLogsFallbackReq u aty sd ed limit).filter i =
       (reqKeyOk (getLogsIndexedReq u aty sd ed limit) i &&
        evalOptCond (getLogsIndexedReq u aty sd ed limit).filter i)) ∧
    (get_activity_logs env (some u) aty limit sd ed).1 =
      (get_activity_logs {env with gsiOk := true} (some u) aty limit sd ed).1 := by
  refine ⟨?_, ⟨rfl, rfl, ?_⟩, ?_⟩
  · rw [get_activity_logs_fallback env u aty sd ed limit hg hsc]
    exact ⟨_, _, rfl⟩
  · intro i
    simp only [getLogsFallbackReq, getLogsIndexedReq, reqKeyOk,
      evalOptCond_combineConds, List.all_cons]
    rfl
  · rw [get_activity_logs_fallback env u aty sd ed limit hg hsc,
      get_activity_logs_indexed {env with gsiOk := true} u aty sd ed limit rfl]
    have hmin : env.table.length ≤ min limit env.pageSize :=
      Nat.le_min.mpr ⟨hlim, hpsz⟩
    have h1 : env.table.take (min limit env.pageSize) = env.table :=
      List.take_of_length_le hmin
    have h2 : (env.table.filter (ownerIs u)).take (min limit env.pageSize) =
        env.table.filter (ownerIs u) :=
      List.take_of_length_le
        (le_trans (List.length_filter_le _ _) hmin)
    have h3 : env.table.filter (fun i => ownerIs u i && condsHold aty sd ed i) =
        (env.table.filter (ownerIs u)).filter (condsHold aty sd ed) := by
      rw [List.filter_filter]
      apply List.filter_congr
      intro i _
      rw [Bool.and_comm]
    show GetLogsResult.ok _ _ = GetLogsResult.ok _ _
    rw [h1, h2, h3]

/-- The three-record store with the GSI unavailable. -/
def envCW : StoreEnv Item := ⟨[itemA1, itemA2, itemB1], false, 10, false, false, none⟩

theorem c1_witness :
    (get_activity_logs envCW (some "A") none 50 none none).1 =
      (get_activity_logs {envCW with gsiOk := true} (some "A") none 50 none none).1 :=
  (c1_fallback_amended envCW "A" none none none 50 rfl rfl (by decide)
    (by decide)).2.2

/-- A two-record store of owner A, paging one item at a time, whose second
`delete_item` call fails. -/
def envP : StoreEnv Item := ⟨[itemA1, itemA2], true, 1, false, false, some 1⟩

theorem c7_counterexample :
    delete_all_user_activities envP "A" =
      (DeleteAllResult.err "delete_item failed", [itemA2],
        [StoreCall.delItem "a1"]) :=
  rfl

/-- Claim C7 (amended): when a store failure interrupts the bulk delete's
multi-page sweep after m records were deleted, the caller receives the error
envelope, which carries no count at all (rather than a count of the records
deleted so far); the records deleted before the failure stay deleted — the
remaining records of that owner are exactly the matched records after the
first m; and the caller learns about completion only by re-invoking: a
subsequent successful call returns the count of the remaining records
(N - m) and removes them. -/
theorem c7_partial_failure (env : StoreEnv Item) (u : String) (m : Nat)
    (hps : 1 ≤ env.pageSize) (hs : SortedBy Item.id env.table)
    (hn : env.deleteFailAfter = some m) (hsc : env.failScan = false)
    (hm : m < (env.table.filter (ownerIs u)).length) :
    (delete_all_user_activities env u =
      (DeleteAllResult.err "delete_item failed",
       env.table.filter (fun i =>
         !(idIn (((env.table.filter (ownerIs u)).take m).map Item.id) (Item.id i))),
       (((env.table.filter (ownerIs u)).take m).map Item.id).map
         StoreCall.delItem)) ∧
    ((delete_all_user_activities env u).2.1.filter (ownerIs u) =
      (env.table.filter (ownerIs u)).drop m) ∧
    (delete_all_user_activities
        {env with table := (delete_all_user_activities env u).2.1, deleteFailAfter := none} u =
      (DeleteAllResult.ok
        ("Deleted " ++ toString ((env.table.filter (ownerIs u)).length - m)
          ++ (" activity log(s) for user " ++ u))
        ((env.table.filter (ownerIs u)).length - m) u,
       (delete_all_user_activities env u).2.1.filter (fun i => !(ownerIs u i)),
       (((env.table.filter (ownerIs u)).drop m).map Item.id).map
         StoreCall.delItem)) := by
  have h1 := delete_all_user_activities_fail env u m hps hs hn hsc hm
  have ht1 : (delete_all_user_activities env u).2.1 =
      env.table.filter (fun i =>
        !(idIn (((env.table.filter (ownerIs u)).take m).map Item.id)
          (Item.id i))) := by
    rw [h1]
  have hrem : (delete_all_user_activities env u).2.1.filter (ownerIs u) =
      (env.table.filter (ownerIs u)).drop m := by
    rw [ht1]
    exact sweep_partial_remaining hs (ownerIs u) m
  refine ⟨h1, hrem, ?_⟩
  have hs1 : SortedBy Item.id (delete_all_user_activities env u).2.1 := by
    rw [ht1]
    exact hs.filter _
  have h2 := delete_all_user_activities_ok
    {env with table := (delete_all_user_activities env u).2.1, deleteFailAfter := none} u
    hps hs1 rfl hsc
  rw [h2]
  rw [hrem, List.length_drop]

/-- A three-record store, paging one item at a time, whose second
`delete_item` call fails. -/
def envP2 : StoreEnv Item := ⟨[itemA1, itemA2, itemB1], true, 1, false, false, some 1⟩

theorem c7_witness :
    (delete_all_user_activities envP2 "A").2.1.filter (ownerIs "A") =
      (envP2.table.filter (ownerIs "A")).drop 1 :=
  (c7_partial_failure envP2 "A" 1 (by decide) (by decide) rfl rfl (by decide)).2.1

/-- The failure envelope shape: `success: false` with `error` only. -/
def shapeErr : EnvShape := ⟨false, false, false, false, true, false, false⟩

/-- The create success shape: `success`, `message`, `data`. -/
def shapeCreateOk : EnvShape := ⟨true, true, false, true, false, false, false⟩

/-- The list success shape: `success`, `count`, `data`. -/
def shapeGetOk : EnvShape := ⟨true, true, true, false, false, false, false⟩

/-- The single-delete success shape: `success`, `message`, `deleted_item`
(no `data` key). -/
def shapeDelOneOk : EnvShape := ⟨true, false, false, true, false, true, false⟩

/-- The not-found shape: `success: false` with a `message` and no `error`. -/
def shapeNotFound : EnvShape := ⟨false, false, false, true, false, false, false⟩

/-- The bulk-delete success shape: `success`, `message`, `deleted_count`
(no `data` key). -/
def shapeDelAllOk : EnvShape := ⟨true, false, false, true, false, false, true⟩

theorem sweepEnvelope_shape {α : Type} (mt u : String) (o : SweepOut α) :
    ((sweepEnvelope mt u o).1).shape = shapeDelAllOk ∨
      ((sweepEnvelope mt u o).1).shape = shapeErr := by
  cases hf : o.failed with
  | true =>
    right
    simp [sweepEnvelope, hf, DeleteAllResult.shape, shapeErr]
  | false =>
    left
    simp [sweepEnvelope, hf, DeleteAllResult.shape, shapeDelAllOk]

theorem c6_counterexample :
    ((delete_activity_log envEmpty "x").1.shape.success = false ∧
     (delete_activity_log envEmpty "x").1.shape.hasError = false ∧
     (delete_activity_log envEmpty "x").1.shape.hasMessage = true) ∧
    ((delete_all_user_activities envEmpty "A").1.shape.success = true ∧
     (delete_all_user_activities envEmpty "A").1.shape.hasData = false) :=
  ⟨⟨rfl, rfl, rfl⟩, rfl, rfl⟩

/-- Claim C6 (amended): every operation returns exactly one structured
envelope and never throws past its boundary (the embedded operations are
total functions into their envelope types). On success the envelope has
`success: true` and carries the operation's payload keys — `data` (with a
`message`) for the creates, `data` and `count` for the list, `deleted_item`
and `message` (but no `data`) for the single delete, `deleted_count` and
`message` (but no `data`) for the bulk deletes. A caught store failure
yields `success: false` with `error`; the single delete's not-found outcome
alone yields `success: false` with a `message` and no `error`. -/
theorem c6_envelopes :
    (∀ (env : StoreEnv Item) aty raw pd u ts iid now,
      (create_food_or_drink_activity_log env aty raw pd u ts iid now).1.shape =
        if env.failPut then shapeErr else shapeCreateOk) ∧
    (∀ (env : StoreEnv Item) raw pd u ts aty2 iid now,
      (create_sleep_activity_log env raw pd u ts aty2 iid now).1.shape =
        if env.failPut then shapeErr else shapeCreateOk) ∧
    (∀ (env : StoreEnv Item) u aty limit sd ed,
      (get_activity_logs env u aty limit sd ed).1.shape =
        if (match u with
            | some _ => !env.gsiOk && env.failScan
            | none => env.failScan) then shapeErr else shapeGetOk) ∧
    (∀ (env : StoreEnv Item) aid,
      (delete_activity_log env aid).1.shape =
        if env.deleteFailAfter = some 0 then shapeErr
        else if (env.table.find? (fun i => i.id == aid)).isSome then shapeDelOneOk
        else shapeNotFound) ∧
    (∀ (env : StoreEnv Item) u,
      (delete_all_user_activities env u).1.shape = shapeDelAllOk ∨
      (delete_all_user_activities env u).1.shape = shapeErr) ∧
    (∀ (env : StoreEnv MemItem) u,
      (delete_all_user_memories env u).1.shape = shapeDelAllOk ∨
      (delete_all_user_memories env u).1.shape = shapeErr) := by
  refine ⟨?_, ?_, ?_, ?_, ?_, ?_⟩
  · intro env aty raw pd u ts iid now
    cases hf : env.failPut <;>
      simp [create_food_or_drink_activity_log, hf, CreateResult.shape, shapeErr, shapeCreateOk, shapeGetOk, shapeDelOneOk, shapeNotFound, shapeDelAllOk]
  · intro env raw pd u ts aty2 iid now
    cases hf : env.failPut <;>
      simp [create_sleep_activity_log, hf, CreateResult.shape, shapeErr, shapeCreateOk, shapeGetOk, shapeDelOneOk, shapeNotFound, shapeDelAllOk]
  · intro env u aty limit sd ed
    cases u with
    | some v =>
      cases hg : env.gsiOk <;> cases hf : env.failScan <;>
        simp [get_activity_logs, hg, hf, GetLogsResult.shape, shapeErr, shapeCreateOk, shapeGetOk, shapeDelOneOk, shapeNotFound, shapeDelAllOk]
    | none =>
      cases hf : env.failScan <;>
        simp [get_activity_logs, hf, GetLogsResult.shape, shapeErr, shapeCreateOk, shapeGetOk, shapeDelOneOk, shapeNotFound, shapeDelAllOk]
  · intro env aid
    by_cases hd : env.deleteFailAfter = some 0
    · simp [delete_activity_log, hd, DeleteOneResult.shape, shapeErr, shapeCreateOk, shapeGetOk, shapeDelOneOk, shapeNotFound, shapeDelAllOk]
    · cases hfind : env.table.find? (fun i => i.id == aid) <;>
        simp [delete_activity_log, hd, hfind, DeleteOneResult.shape, shapeErr, shapeCreateOk, shapeGetOk, shapeDelOneOk, shapeNotFound, shapeDelAllOk]
  · intro env u
    unfold delete_all_user_activities
    cases hg : env.gsiOk with
    | true =>
      simp only [if_true]
      exact sweepEnvelope_shape _ _ _
    | false =>
      cases hf : env.failScan with
      | true =>
        right
        simp [hf, DeleteAllResult.shape, shapeErr]
      | false =>
        simp only [hf, Bool.false_eq_true, if_false]
        exact sweepEnvelope_shape _ _ _
  · intro env u
    unfold delete_all_user_memories
    cases hg : env.gsiOk with
    | true =>
      simp only [if_true]
      exact sweepEnvelope_shape _ _ _
    | false =>
      cases hf : env.failScan with
      | true =>
        right
        simp [hf, DeleteAllResult.shape, shapeErr]
      | false =>
        simp only [hf, Bool.false_eq_true, if_false]
        exact sweepEnvelope_shape _ _ _
